import Mathlib

/-!
# Tilt motor, LED and accelerometer protocol (`src/tilt.c`)

A shallow embedding of `tilt.c`.  The two process-wide counters and the device
handle form the explicit state `Machine`; every function of the source becomes
a pure function that takes the state and returns the C return value together
with the next state.  The USB transport (`fnusb_bulk`, `fnusb_control`) is an
external collaborator: it is an arbitrary deterministic function `Env.usb` from
the calls made so far and the current call to a response, and every call is
appended to `Machine.trace`.

Conventions.
* `uint32_t` values are `Nat` reduced modulo `2^32` where the source can wrap.
* `double` values are exact rationals (every finite double is one; the clamp,
  the comparison, the doubling and the truncation of the source are exact on
  the values involved).
* The conversion of a double to `uint16_t` is defined in C only when the
  truncated value fits; elsewhere its result belongs to the surroundings,
  `Env.ub_uint16`.
* The host is little-endian, as `memcpy` into `motor_reply` assumes.
* A byte buffer is a function from the index to the byte.
-/

namespace Tilt

/-! ## Constants -/

def MAX_TILT_ANGLE : ℚ := 31
def MIN_TILT_ANGLE : ℚ := -31

/-- Modelled from the spec: `freenect_internal.h` is not part of the sources at
hand.  The legacy revision selects the first column of the LED table. -/
def KINECT_MODEL_1414 : Nat := 0

/-- Modelled from the spec: `freenect_internal.h` is not part of the sources at
hand.  The current revision selects the second column of the LED table. -/
def KINECT_MODEL_K4W : Nat := 1

/-! ## Machine integers -/

/-- Conversion to `int8_t` (two's complement wrap). -/
def toInt8 (v : Int) : Int := if v % 256 < 128 then v % 256 else v % 256 - 256

/-- Conversion to `int16_t` (two's complement wrap). -/
def toInt16 (v : Int) : Int := if v % 65536 < 32768 then v % 65536 else v % 65536 - 65536

/-- Conversion to `int32_t` (two's complement wrap). -/
def toInt32 (v : Int) : Int :=
  if v % 4294967296 < 2147483648 then v % 4294967296 else v % 4294967296 - 4294967296

/-- Arithmetic on `uint32_t` wraps modulo 2^32. -/
def u32 (n : Nat) : Nat := n % 4294967296

/-- Conversion of an integer to `uint16_t`. -/
def toUInt16 (v : Int) : Nat := (v % 65536).toNat

/-- Conversion of an integer to `uint32_t`. -/
def toUInt32 (v : Int) : Nat := (v % 4294967296).toNat

/-- Truncation of a double toward zero. -/
def truncToInt (a : ℚ) : Int := if 0 ≤ a then ⌊a⌋ else ⌈a⌉

/-- The cast `(int32_t) angle`.  Outside the range of `int32_t` the C standard
leaves the result open; the model takes the value the x86 conversion
instruction delivers there, `INT32_MIN`. -/
def doubleToInt32 (a : ℚ) : Int :=
  if -2147483648 ≤ truncToInt a ∧ truncToInt a < 2147483648 then truncToInt a
  else -2147483648

/-- The cast `(uint16_t) angle`: truncation toward zero when the truncated value
fits `uint16_t`.  For any other value, a negative one in particular, the C
standard leaves the conversion undefined; the model then takes the 16-bit value
that the build at hand delivers, `ub`. -/
def doubleToUInt16 (ub : ℚ → Nat) (a : ℚ) : Nat :=
  if 0 ≤ truncToInt a ∧ truncToInt a < 65536 then (truncToInt a).toNat else ub a % 65536

/-! ## Buffers and wire encoding -/

/-- A byte buffer, indexed from 0. -/
abbrev Buffer := Nat → Nat

/-- Byte `i` of a device response; past its end the value is 0. -/
def byteOf (data : List Nat) (i : Nat) : Nat := data.getD i 0 % 256

/-- The little-endian 32-bit word at offset `off` of a buffer. -/
def le32 (buf : Buffer) (off : Nat) : Nat :=
  buf off % 256 + 256 * (buf (off + 1) % 256) + 65536 * (buf (off + 2) % 256)
    + 16777216 * (buf (off + 3) % 256)

/-- The little-endian 32-bit word at offset `off` of a device response. -/
def le32Of (data : List Nat) (off : Nat) : Nat := le32 (byteOf data) off

/-- Modelled from the spec: the macro `fn_le32` belongs to `freenect_internal.h`,
which is not part of the sources at hand; the spec fixes command frames as
little-endian on the wire.  These are the four bytes in memory of a 32-bit value
passed through `fn_le32`. -/
def fn_le32 (v : Nat) : List Nat :=
  [v % 256, v / 256 % 256, v / 65536 % 256, v / 16777216 % 256]

/-- The struct `motor_command`. -/
structure motor_command where
  magic : Nat
  tag : Nat
  arg1 : Nat
  cmd : Nat
  arg2 : Nat
deriving DecidableEq

/-- The 20 bytes of a `motor_command` in memory. -/
def motor_command.bytes (c : motor_command) : List Nat :=
  fn_le32 c.magic ++ fn_le32 c.tag ++ fn_le32 c.arg1 ++ fn_le32 c.cmd ++ fn_le32 c.arg2

/-- The struct `motor_reply`. -/
structure motor_reply where
  magic : Nat
  tag : Nat
  status : Nat
deriving DecidableEq

/-! ## Transport -/

/-- One call of a transport primitive, with the bytes it sends. -/
inductive UsbCall where
  | bulk (endpoint : Nat) (payload : List Nat) (len : Nat)
  | control (bmRequestType bRequest wValue wIndex : Nat) (payload : List Nat) (wLength : Nat)
deriving DecidableEq

/-- What a transport primitive answers: its return value, the count it stores
in `*transferred` (bulk only) and the bytes the device delivers. -/
structure UsbResp where
  res : Int
  transferred : Int
  data : List Nat
deriving DecidableEq

/-- The surroundings of the program: the transport, the content of fresh stack
memory (its bytes are indeterminate in C), and the value the build delivers for
the conversion of a double to `uint16_t` where C leaves it undefined. -/
structure Env where
  usb : List UsbCall → UsbCall → UsbResp
  uninit : List UsbCall → Nat → Nat
  ub_uint16 : ℚ → Nat

/-- Modelled from the spec: the struct `freenect_raw_tilt_state` is declared in
`libfreenect.h`, which is not part of the sources at hand; the spec gives it as
three `i16` accelerometer axes, an `i8` tilt angle in half degrees and a status
code. -/
structure freenect_raw_tilt_state where
  accelerometer_x : Int
  accelerometer_y : Int
  accelerometer_z : Int
  tilt_angle : Int
  tilt_status : Int
deriving DecidableEq

/-- The fields of `freenect_device` that `tilt.c` reads or writes. -/
structure freenect_device where
  usb_motor_dev : Bool
  model : Nat
  raw_state : freenect_raw_tilt_state
deriving DecidableEq

/-- The program state: the two global counters, the device handle and the
transport calls made so far. -/
structure Machine where
  trace : List UsbCall
  tag_seq : Nat
  tag_next_ack : Nat
  dev : freenect_device
deriving DecidableEq

/-- The buffer after the device has delivered `count` bytes into its first
`len` bytes. -/
def fillBuffer (buf : Buffer) (len : Nat) (count : Int) (data : List Nat) : Buffer :=
  fun i => if i < count.toNat ∧ i < len ∧ i < data.length then byteOf data i else buf i

/-- Modelled from the spec: `fnusb_bulk` is the transport collaborator
`bulk_write/read(endpoint, buffer, length) -> (bytes_transferred, error?)`, whose
code is not part of the sources at hand.  An endpoint with bit 7 set reads into
the buffer, any other endpoint sends the first `len` bytes of it. -/
def fnusb_bulk (env : Env) (m : Machine) (endpoint : Nat) (buffer : Buffer) (len : Nat) :
    UsbResp × Buffer × Machine :=
  let call := UsbCall.bulk endpoint
    (if 128 ≤ endpoint then [] else (List.range len).map buffer) len
  let r := env.usb m.trace call
  (r, if 128 ≤ endpoint then fillBuffer buffer len r.transferred r.data else buffer,
    { m with trace := m.trace ++ [call] })

/-- Modelled from the spec: `fnusb_control` is the transport collaborator
`control_transfer(direction, request, value, index, buffer, length)`, whose code
is not part of the sources at hand.  A request type with bit 7 set reads into
the buffer; the return value is the number of bytes moved or a negative error. -/
def fnusb_control (env : Env) (m : Machine) (bmRequestType bRequest wValue wIndex : Nat)
    (buffer : Buffer) (wLength : Nat) : UsbResp × Buffer × Machine :=
  let call := UsbCall.control bmRequestType bRequest wValue wIndex
    (if 128 ≤ bmRequestType then [] else (List.range wLength).map buffer) wLength
  let r := env.usb m.trace call
  (r, if 128 ≤ bmRequestType then fillBuffer buffer wLength r.res r.data else buffer,
    { m with trace := m.trace ++ [call] })

/-! ## The functions of `tilt.c` -/

/-- The function `freenect_tilt_get_reply`. -/
def freenect_tilt_get_reply (env : Env) (m : Machine) : Int × Machine :=
  let buffer : Buffer := fun _ => 0
  let out := fnusb_bulk env m 0x81 buffer 1024
  let r := out.1
  let buffer := out.2.1
  let m := out.2.2
  let res := r.res
  if res ≠ 0 then (res, m)
  else if r.transferred ≠ 12 then (res, m)
  else
    let reply : motor_reply := ⟨le32 buffer 0, le32 buffer 4, le32 buffer 8⟩
    let res := if reply.magic ≠ 0x0a6fe000 then -1 else res
    let res := if reply.tag ≠ m.tag_next_ack then -1 else res
    let res := if reply.status ≠ 0 then -1 else res
    (res, { m with tag_next_ack := u32 (m.tag_next_ack + 1) })

/-- The function `freenect_get_tilt_state`. -/
def freenect_get_tilt_state (dev : freenect_device) : freenect_raw_tilt_state :=
  dev.raw_state

/-- The buffer `freenect_update_tilt_state` sends on the current revision: the
first 16 bytes of the command (magic, tag, arg1 = 0x68, cmd = 0x8032; `arg2` is
never assigned and never copied), then 240 bytes of fresh stack memory. -/
def refresh_buffer (env : Env) (m : Machine) : Buffer :=
  let cmd : motor_command := ⟨0x06022009, m.tag_seq, 0x68, 0x8032, 0⟩
  fun i => if i < 16 then cmd.bytes.getD i 0 else env.uninit m.trace i

/-- The decoding of the current-revision payload: five `int32_t` at offset 16 of
the buffer, narrowed into the fields of the raw state. -/
def decode_k4w (buffer : Buffer) : freenect_raw_tilt_state :=
  let x := toInt32 (le32 buffer 16)
  let y := toInt32 (le32 buffer 20)
  let z := toInt32 (le32 buffer 24)
  let tilt := toInt32 (le32 buffer 28)
  let status := toInt32 (le32 buffer 32)
  { accelerometer_x := toInt16 x
    accelerometer_y := toInt16 y
    accelerometer_z := toInt16 z
    tilt_angle := toInt8 (toInt8 tilt * 2)
    tilt_status := status }

/-- The decoding of the 10 legacy bytes into the fields of the raw state. -/
def decode_1414 (buf : Buffer) : freenect_raw_tilt_state :=
  let ux : Nat := ((buf 2 % 256 * 256) ||| (buf 3 % 256)) % 65536
  let uy : Nat := ((buf 4 % 256 * 256) ||| (buf 5 % 256)) % 65536
  let uz : Nat := ((buf 6 % 256 * 256) ||| (buf 7 % 256)) % 65536
  { accelerometer_x := toInt16 ux
    accelerometer_y := toInt16 uy
    accelerometer_z := toInt16 uz
    tilt_angle := toInt8 (buf 8 % 256 : Nat)
    tilt_status := (buf 9 % 256 : Nat) }

/-- The second conditional of `freenect_update_tilt_state`, the legacy revision,
entered with the value `ret` has at that point. -/
def update_tilt_state_1414 (env : Env) (ret : Int) (m : Machine) : Int × Machine :=
  if m.dev.model = KINECT_MODEL_1414 then
    let out := fnusb_control env m 0xC0 0x32 0x0 0x0 (env.uninit m.trace) 10
    let ret := out.1.res
    let buf := out.2.1
    let m := out.2.2
    if ret ≠ 10 then (if ret < 0 then ret else -1, m)
    else (ret, { m with dev := { m.dev with raw_state := decode_1414 buf } })
  else (ret, m)

/-- The function `freenect_update_tilt_state`.  The loop over the received words
of the source copies each into a local and has no effect.  The two revision
tests are consecutive `if`s in the source, not `if ... else if`. -/
def freenect_update_tilt_state (env : Env) (m : Machine) : Int × Machine :=
  if m.dev.usb_motor_dev then
    if m.dev.model = KINECT_MODEL_K4W then
      let buffer := refresh_buffer env m
      let m := { m with tag_seq := u32 (m.tag_seq + 1) }
      let out := fnusb_bulk env m 0x01 buffer 16
      let res := out.1.res
      let m := out.2.2
      if res ≠ 0 then (res, m)
      else
        let out := fnusb_bulk env m 0x81 buffer 256
        let res := out.1.res
        let buffer := out.2.1
        let m := out.2.2
        if res ≠ 0 then (res, m)
        else
          let m := { m with dev := { m.dev with raw_state := decode_k4w buffer } }
          let out := freenect_tilt_get_reply env m
          update_tilt_state_1414 env out.1 out.2
    else update_tilt_state_1414 env 0 m
  else (0, m)

/-- The clamp of the source: `(angle<MIN) ? MIN : ((angle>MAX) ? MAX : angle)`. -/
def clampAngle (angle : ℚ) : ℚ :=
  if angle < MIN_TILT_ANGLE then MIN_TILT_ANGLE
  else if angle > MAX_TILT_ANGLE then MAX_TILT_ANGLE else angle

/-- The 56-byte buffer of the set-angle command: zeroed, then the 20 bytes of the
command (cmd = 0x803B, `arg2` = the truncated angle). -/
def set_tilt_buffer (tag : Nat) (tilt_degrees : Int) : Buffer :=
  let cmd : motor_command := ⟨0x06022009, tag, 0, 0x803B, toUInt32 tilt_degrees⟩
  fun i => cmd.bytes.getD i 0

/-- The function `freenect_set_tilt_degs`. -/
def freenect_set_tilt_degs (env : Env) (m : Machine) (angle : ℚ) : Int × Machine :=
  if m.dev.usb_motor_dev then
    if m.dev.model = KINECT_MODEL_K4W then
      let tilt_degrees := doubleToInt32 angle
      if tilt_degrees > 31 ∨ tilt_degrees < -31 then (-1, m)
      else
        let buffer := set_tilt_buffer m.tag_seq tilt_degrees
        let m := { m with tag_seq := u32 (m.tag_seq + 1) }
        let out := fnusb_bulk env m 0x01 buffer 56
        let res := out.1.res
        let m := out.2.2
        if res ≠ 0 then (res, m)
        else freenect_tilt_get_reply env m
    else if m.dev.model = KINECT_MODEL_1414 then
      let angle := clampAngle angle
      let angle := angle * 2
      let out := fnusb_control env m 0x40 0x31 (doubleToUInt16 env.ub_uint16 angle) 0x0
        (env.uninit m.trace) 0x0
      (out.1.res, out.2.2)
    else (0, m)
  else (0, m)

/-- The table `freenect_led_translation`: one row per logical option, the legacy
code first, the current-revision code second. -/
def freenect_led_translation : List (List Int) :=
  [[0, 1], [1, 3], [2, 4], [3, 1], [4, 2], [5, 1], [6, 1]]

/-- The lookup `freenect_led_translation[option][model]`; an index outside the
table, which C leaves open, reads 0. -/
def led_lookup (option : Nat) (model : Nat) : Int :=
  (freenect_led_translation.getD option []).getD model 0

/-- The 20-byte buffer of the set-LED command (cmd = 0x10, `arg2` = the
translated option). -/
def set_led_buffer (tag : Nat) (option : Int) : Buffer :=
  let cmd : motor_command := ⟨0x06022009, tag, 0, 0x10, toUInt32 option⟩
  fun i => cmd.bytes.getD i 0

/-- The function `freenect_set_led`. -/
def freenect_set_led (env : Env) (m : Machine) (option : Nat) : Int × Machine :=
  let option := led_lookup option m.dev.model
  if m.dev.usb_motor_dev then
    if m.dev.model = KINECT_MODEL_K4W then
      let buffer := set_led_buffer m.tag_seq option
      let m := { m with tag_seq := u32 (m.tag_seq + 1) }
      let out := fnusb_bulk env m 0x01 buffer 20
      let res := out.1.res
      let m := out.2.2
      if res ≠ 0 then (res, m)
      else freenect_tilt_get_reply env m
    else if m.dev.model = KINECT_MODEL_1414 then
      let out := fnusb_control env m 0x40 0x06 (toUInt16 option) 0x0 (env.uninit m.trace) 0x0
      (out.1.res, out.2.2)
    else (0, m)
  else (0, m)

/-- The function `freenect_get_tilt_degs`. -/
def freenect_get_tilt_degs (state : freenect_raw_tilt_state) : ℚ :=
  (state.tilt_angle : ℚ) / 2

/-- The function `freenect_get_tilt_status`. -/
def freenect_get_tilt_status (state : freenect_raw_tilt_state) : Int :=
  state.tilt_status

/-- Modelled from the spec: `libfreenect.h` is not part of the sources at hand;
the spec gives the counts per g of the accelerometer as 819. -/
def FREENECT_COUNTS_PER_G : ℚ := 819

def GRAVITY : ℚ := 980665 / 100000

/-- The function `freenect_get_mks_accel`, over exact rationals. -/
def freenect_get_mks_accel (state : freenect_raw_tilt_state) : ℚ × ℚ × ℚ :=
  ((state.accelerometer_x : ℚ) / FREENECT_COUNTS_PER_G * GRAVITY,
   (state.accelerometer_y : ℚ) / FREENECT_COUNTS_PER_G * GRAVITY,
   (state.accelerometer_z : ℚ) / FREENECT_COUNTS_PER_G * GRAVITY)

/-! ## Sequences of public operations -/

/-- A call of one of the three public operations that touch the transport. -/
inductive Op where
  | update
  | set_tilt (angle : ℚ)
  | set_led (option : Nat)

/-- One public operation; the C return value is dropped. -/
def step (env : Env) (m : Machine) : Op → Machine
  | Op.update => (freenect_update_tilt_state env m).2
  | Op.set_tilt a => (freenect_set_tilt_degs env m a).2
  | Op.set_led o => (freenect_set_led env m o).2

/-- A finite sequence of public operations, first to last. -/
def run (env : Env) (m : Machine) (ops : List Op) : Machine :=
  ops.foldl (step env) m

/-- The state at program start: both counters are 1, nothing has been sent. -/
def initial (dev : freenect_device) : Machine :=
  { tag_seq := 1, tag_next_ack := 1, dev := dev, trace := [] }

/-! ## Named transport calls and sample surroundings -/

/-- The bulk read `freenect_tilt_get_reply` issues. -/
def ackCall : UsbCall := UsbCall.bulk 0x81 [] 1024

/-- The command write of a refresh on the current revision in state `m`. -/
def refreshWriteCall (env : Env) (m : Machine) : UsbCall :=
  UsbCall.bulk 0x01 ((List.range 16).map (refresh_buffer env m)) 16

/-- The data read of a refresh on the current revision. -/
def refreshReadCall : UsbCall := UsbCall.bulk 0x81 [] 256

/-- The control transfer of a refresh on the legacy revision. -/
def legacyRefreshCall : UsbCall := UsbCall.control 0xC0 0x32 0 0 [] 10

/-- The command write of a set-angle on the current revision. -/
def setTiltWriteCall (tag : Nat) (tilt_degrees : Int) : UsbCall :=
  UsbCall.bulk 0x01 ((List.range 56).map (set_tilt_buffer tag tilt_degrees)) 56

/-- The command write of a set-LED on the current revision. -/
def setLedWriteCall (tag : Nat) (option : Int) : UsbCall :=
  UsbCall.bulk 0x01 ((List.range 20).map (set_led_buffer tag option)) 20

/-- The control transfer of a set-angle on the legacy revision. -/
def legacySetTiltCall (wValue : Nat) : UsbCall := UsbCall.control 0x40 0x31 wValue 0 [] 0

/-- The control transfer of a set-LED on the legacy revision. -/
def legacySetLedCall (wValue : Nat) : UsbCall := UsbCall.control 0x40 0x06 wValue 0 [] 0

/-- A device handle of the current revision with a motor attached. -/
def k4wDev : freenect_device :=
  { usb_motor_dev := true, model := KINECT_MODEL_K4W, raw_state := ⟨0, 0, 0, 0, 0⟩ }

/-- A device handle of the legacy revision with a motor attached. -/
def legacyDev : freenect_device :=
  { usb_motor_dev := true, model := KINECT_MODEL_1414, raw_state := ⟨0, 0, 0, 0, 0⟩ }

/-- A build that converts a double to `uint16_t` through a signed integer and
keeps the low 16 bits. -/
def wrapUInt16 (a : ℚ) : Nat := toUInt16 (truncToInt a)

/-- A transport that answers every call with the same response. -/
def constEnv (r : UsbResp) : Env :=
  { usb := fun _ _ => r, uninit := fun _ _ => 0, ub_uint16 := wrapUInt16 }

/-- A well-formed ack for tag 1: magic `0x0A6FE000`, tag 1, status 0. -/
def goodAck1 : List Nat := [0x00, 0xE0, 0x6F, 0x0A, 1, 0, 0, 0, 0, 0, 0, 0]

/-- An ack for tag 1 whose magic is wrong in its first byte. -/
def badMagicAck1 : List Nat := [0x01, 0xE0, 0x6F, 0x0A, 1, 0, 0, 0, 0, 0, 0, 0]

/-- A transport on which every write succeeds and every read delivers only the
first 11 bytes of a well-formed ack. -/
def shortAckEnv : Env := constEnv ⟨0, 11, goodAck1⟩

/-- The current-revision LED code as the spec words it: the index itself,
except that options 0, 3, 5 and 6 give 1 and option 4 gives 2. -/
def spec_led_current (i : Nat) : Int :=
  if i = 0 ∨ i = 3 ∨ i = 5 ∨ i = 6 then 1 else if i = 4 then 2 else i

/-- The legacy response of the scenario in the spec; its first two bytes are
arbitrary. -/
def legacySample : List Nat := [0xAA, 0xBB, 0x01, 0x00, 0x00, 0x01, 0x00, 0x00, 0x05, 0x02]

/-- A current-revision refresh payload of 36 bytes: 16 header bytes, then the
words x = 256, y = 1, z = 0, tilt = 5, status = 2. -/
def k4wSample : List Nat :=
  [0, 0, 0, 0, 0, 0, 0, 0, 0, 0, 0, 0, 0, 0, 0, 0,
   0, 1, 0, 0, 1, 0, 0, 0, 0, 0, 0, 0, 5, 0, 0, 0, 2, 0, 0, 0]

/-- A transport on which every write succeeds, the refresh data read delivers
`k4wSample`, and every ack carries a bad magic. -/
def ackFailEnv : Env :=
  { usb := fun _ c => if c = refreshReadCall then ⟨0, 36, k4wSample⟩ else ⟨0, 12, badMagicAck1⟩
    uninit := fun _ _ => 0
    ub_uint16 := wrapUInt16 }

/-- A transport on which every call fails with -1. -/
def failEnv : Env := constEnv ⟨-1, 0, []⟩

/-- How one public operation may move the two counters: not at all, or `tag_seq`
by one with `tag_next_ack` by at most one. -/
def CounterStep (m n : Machine) : Prop :=
  (n.tag_seq = m.tag_seq ∧ n.tag_next_ack = m.tag_next_ack)
  ∨ (n.tag_seq = u32 (m.tag_seq + 1)
      ∧ (n.tag_next_ack = m.tag_next_ack ∨ n.tag_next_ack = u32 (m.tag_next_ack + 1)))

/-- A well-formed ack for tag 2. -/
def goodAck2 : List Nat := [0x00, 0xE0, 0x6F, 0x0A, 2, 0, 0, 0, 0, 0, 0, 0]

/-- A current-revision refresh payload of 36 bytes whose tilt word is 15. -/
def k4wTilt15 : List Nat :=
  [0, 0, 0, 0, 0, 0, 0, 0, 0, 0, 0, 0, 0, 0, 0, 0,
   0, 0, 0, 0, 0, 0, 0, 0, 0, 0, 0, 0, 15, 0, 0, 0, 0, 0, 0, 0]

/-- A current-revision device that has tilted to 15 degrees: every write
succeeds, the refresh data read reports the tilt word 15, the first ack carries
tag 1 and every later ack tag 2. -/
def echoEnv : Env :=
  { usb := fun h c =>
      if c = refreshReadCall then ⟨0, 36, k4wTilt15⟩
      else if h.length = 1 then ⟨0, 12, goodAck1⟩ else ⟨0, 12, goodAck2⟩
    uninit := fun _ _ => 0
    ub_uint16 := wrapUInt16 }

/-- The 56 bytes of the set-angle frame as the spec words it: the little-endian
fields magic, tag, arg1 = 0, opcode = 0x803B and arg2 = the truncated angle in
two's complement, then 36 zero bytes. -/
def setAngleFrame (tag : Nat) (t : Int) : List Nat :=
  fn_le32 0x06022009 ++ fn_le32 tag ++ fn_le32 0 ++ fn_le32 0x803B ++ fn_le32 (toUInt32 t)
    ++ List.replicate 36 0

/-- The 20 bytes of the set-LED frame: magic, tag, arg1 = 0, opcode = 0x10 and
arg2 = the translated option. -/
def setLedFrame (tag : Nat) (option : Int) : List Nat :=
  fn_le32 0x06022009 ++ fn_le32 tag ++ fn_le32 0 ++ fn_le32 0x10 ++ fn_le32 (toUInt32 option)

/-- The 16 bytes of the refresh frame: magic, tag, arg1 = 0x68 and opcode =
0x8032. -/
def refreshFrame (tag : Nat) : List Nat :=
  fn_le32 0x06022009 ++ fn_le32 tag ++ (fn_le32 0x68 ++ fn_le32 0x8032)

/-- A transport on which every write succeeds, the refresh data read delivers
`k4wSample`, and every ack is the well-formed ack for tag 1. -/
def sampleEnv : Env :=
  { usb := fun _ c => if c = refreshReadCall then ⟨0, 36, k4wSample⟩ else ⟨0, 12, goodAck1⟩
    uninit := fun _ _ => 0
    ub_uint16 := wrapUInt16 }

/-- The tag field of a command frame: the little-endian word at offset 4 of a
bulk write to endpoint 0x01; other transport calls carry no command frame. -/
def frameTag : UsbCall → Option Nat
  | UsbCall.bulk endpoint payload _ => if endpoint = 0x01 then some (le32Of payload 4) else none
  | UsbCall.control _ _ _ _ _ _ => none

/-- The tags of the command frames written to the transport, first to last. -/
def frameTags (trace : List UsbCall) : List Nat := trace.filterMap frameTag

/-- How one public operation relates to command frames: it appends calls to the
trace and either writes no frame and keeps `tag_seq`, or writes one frame, which
carries the former `tag_seq`, and increments `tag_seq` modulo 2^32. -/
def FrameStep (m n : Machine) : Prop :=
  ∃ extra : List UsbCall, n.trace = m.trace ++ extra
    ∧ ((frameTags extra = [] ∧ n.tag_seq = m.tag_seq)
      ∨ (frameTags extra = [m.tag_seq % 4294967296] ∧ n.tag_seq = u32 (m.tag_seq + 1)))

/-- The tags 1, 2, ..., n, each reduced modulo 2^32. -/
def consecutiveTags (n : Nat) : List Nat := (List.range n).map (fun i => (i + 1) % 4294967296)

/-- A device handle whose revision is neither of the two supported ones. -/
def unknownDev : freenect_device :=
  { usb_motor_dev := true, model := 2, raw_state := ⟨1, 2, 3, 4, 5⟩ }

/-- The call `freenect_get_tilt_degs(state)` on the pointed-to state: the value
returned and the state afterwards; the source only reads through the pointer. -/
def get_tilt_degs_call (state : freenect_raw_tilt_state) : ℚ × freenect_raw_tilt_state :=
  (freenect_get_tilt_degs state, state)

/-- The call `freenect_get_tilt_status(state)` on the pointed-to state: the
value returned and the state afterwards; the source only reads through the
pointer. -/
def get_tilt_status_call (state : freenect_raw_tilt_state) : Int × freenect_raw_tilt_state :=
  (freenect_get_tilt_status state, state)

/-- The call `freenect_get_mks_accel(state, x, y, z)` on the pointed-to state:
the three values stored through `x`, `y`, `z` and the state afterwards; the
source writes through the three output pointers only. -/
def get_mks_accel_call (state : freenect_raw_tilt_state) :
    (ℚ × ℚ × ℚ) × freenect_raw_tilt_state :=
  (freenect_get_mks_accel state, state)

/-- A legacy build and device: the conversion of a negative double to `uint16_t`
is folded to 0, and every transport call returns 0 with no data. -/
def foldingEnv : Env :=
  { usb := fun _ _ => ⟨0, 0, []⟩
    uninit := fun _ _ => 0
    ub_uint16 := fun _ => 0 }

/-! ## Reply validation -/

theorem fill_zero (data : List Nat) (i : Nat) (h : i < 12) :
    fillBuffer (fun _ => 0) 1024 12 data i = byteOf data i := by
  unfold fillBuffer
  by_cases hl : i < data.length
  · have h1 : i < (12 : Int).toNat := by simpa using h
    have h2 : i < 1024 := by omega
    rw [if_pos ⟨h1, h2, hl⟩]
  · have h0 : byteOf data i = 0 := by
      unfold byteOf
      rw [List.getD_eq_default _ _ (by omega)]
    rw [if_neg (fun hc => hl hc.2.2), h0]

theorem le32_fill_zero (data : List Nat) (off : Nat) (h : off + 3 < 12) :
    le32 (fillBuffer (fun _ => 0) 1024 12 data) off = le32Of data off := by
  unfold le32Of le32
  rw [fill_zero data off (by omega), fill_zero data (off+1) (by omega),
    fill_zero data (off+2) (by omega), fill_zero data (off+3) (by omega)]

/-- The reply validator in closed form: what it returns and the state it leaves,
by cases on the transport response. -/
theorem get_reply_eq (env : Env) (m : Machine) :
    freenect_tilt_get_reply env m =
      if (env.usb m.trace ackCall).res ≠ 0 then
        ((env.usb m.trace ackCall).res, { m with trace := m.trace ++ [ackCall] })
      else if (env.usb m.trace ackCall).transferred ≠ 12 then
        (0, { m with trace := m.trace ++ [ackCall] })
      else
        (if le32Of (env.usb m.trace ackCall).data 0 = 0x0A6FE000
            ∧ le32Of (env.usb m.trace ackCall).data 4 = m.tag_next_ack
            ∧ le32Of (env.usb m.trace ackCall).data 8 = 0 then 0 else -1,
         { m with trace := m.trace ++ [ackCall],
                  tag_next_ack := u32 (m.tag_next_ack + 1) }) := by
  unfold freenect_tilt_get_reply fnusb_bulk ackCall
  simp only [show (128 ≤ 0x81) = True from by simp, if_true]
  by_cases h1 : (env.usb m.trace (UsbCall.bulk 0x81 [] 1024)).res = 0
  · by_cases h2 : (env.usb m.trace (UsbCall.bulk 0x81 [] 1024)).transferred = 12
    · simp only [h1, h2, ne_eq, not_true_eq_false, if_false]
      rw [le32_fill_zero _ 0 (by omega), le32_fill_zero _ 4 (by omega),
        le32_fill_zero _ 8 (by omega)]
      by_cases a : le32Of (env.usb m.trace (UsbCall.bulk 0x81 [] 1024)).data 0 = 0x0A6FE000 <;>
      by_cases b : le32Of (env.usb m.trace (UsbCall.bulk 0x81 [] 1024)).data 4 = m.tag_next_ack <;>
      by_cases c : le32Of (env.usb m.trace (UsbCall.bulk 0x81 [] 1024)).data 8 = 0 <;>
      simp [a, b, c]
    · simp [h1, h2]
  · simp [h1]

/-- C1: when the ack read succeeds at transport level with exactly 12 bytes,
`freenect_tilt_get_reply` returns 0 if and only if the little-endian magic is
`0x0A6FE000`, the tag equals the current `tag_next_ack` and the status is 0;
a frame violating any of the three is rejected with the nonzero result -1. -/
theorem C1_reply_accepted_iff_wellformed (env : Env) (m : Machine)
    (hres : (env.usb m.trace ackCall).res = 0)
    (hlen : (env.usb m.trace ackCall).transferred = 12) :
    ((freenect_tilt_get_reply env m).1 = 0 ↔
      (le32Of (env.usb m.trace ackCall).data 0 = 0x0A6FE000
        ∧ le32Of (env.usb m.trace ackCall).data 4 = m.tag_next_ack
        ∧ le32Of (env.usb m.trace ackCall).data 8 = 0))
    ∧ (¬ (le32Of (env.usb m.trace ackCall).data 0 = 0x0A6FE000
        ∧ le32Of (env.usb m.trace ackCall).data 4 = m.tag_next_ack
        ∧ le32Of (env.usb m.trace ackCall).data 8 = 0) →
      (freenect_tilt_get_reply env m).1 = -1) := by
  rw [get_reply_eq]
  simp only [hres, hlen, ne_eq, not_true_eq_false, if_false]
  constructor
  · constructor
    · intro h
      by_contra hc
      rw [if_neg hc] at h
      exact absurd h (by decide)
    · intro h
      rw [if_pos h]
  · intro h
    rw [if_neg h]

/-- C1, at a concrete input: a well-formed ack for tag 1 is accepted in the
initial state. -/
theorem C1_reply_accepted_iff_wellformed_witness :
    ((constEnv ⟨0, 12, goodAck1⟩).usb (initial k4wDev).trace ackCall).res = 0
    ∧ ((constEnv ⟨0, 12, goodAck1⟩).usb (initial k4wDev).trace ackCall).transferred = 12
    ∧ (freenect_tilt_get_reply (constEnv ⟨0, 12, goodAck1⟩) (initial k4wDev)).1 = 0 :=
  ⟨rfl, rfl,
    ((C1_reply_accepted_iff_wellformed (constEnv ⟨0, 12, goodAck1⟩) (initial k4wDev)
      rfl rfl).1).2 (by decide)⟩

/-- C2, refuted as stated: a 12-byte reply with a bad magic is rejected with -1,
and `tag_next_ack` has moved from 1 to 2 all the same. -/
theorem C2_failed_check_advances_counterexample :
    (freenect_tilt_get_reply (constEnv ⟨0, 12, badMagicAck1⟩) (initial k4wDev)).1 = -1
    ∧ (initial k4wDev).tag_next_ack = 1
    ∧ (freenect_tilt_get_reply (constEnv ⟨0, 12, badMagicAck1⟩)
        (initial k4wDev)).2.tag_next_ack = 2 := by
  rw [get_reply_eq]
  decide

/-- C2, amended: `freenect_tilt_get_reply` increments `tag_next_ack` (modulo
2^32) for every reply that is read without transport error and is exactly 12
bytes long, whether or not the three checks pass; it leaves `tag_next_ack`
unchanged exactly when the read fails or the length is not 12. -/
theorem C2_tag_next_ack_after_reply (env : Env) (m : Machine) :
    (freenect_tilt_get_reply env m).2.tag_next_ack =
      if (env.usb m.trace ackCall).res = 0 ∧ (env.usb m.trace ackCall).transferred = 12
      then u32 (m.tag_next_ack + 1) else m.tag_next_ack := by
  rw [get_reply_eq]
  by_cases h1 : (env.usb m.trace ackCall).res = 0
  · by_cases h2 : (env.usb m.trace ackCall).transferred = 12
    · simp [h1, h2]
    · simp [h1, h2]
  · simp [h1]

/-! ## The public operations in closed form -/

theorem k4w_ne_1414 : KINECT_MODEL_K4W ≠ KINECT_MODEL_1414 := by decide

theorem update_1414_of_ne (env : Env) (ret : Int) (m : Machine)
    (h : m.dev.model ≠ KINECT_MODEL_1414) : update_tilt_state_1414 env ret m = (ret, m) := by
  unfold update_tilt_state_1414
  rw [if_neg h]

theorem update_1414_eq (env : Env) (ret : Int) (m : Machine)
    (h : m.dev.model = KINECT_MODEL_1414) :
    update_tilt_state_1414 env ret m =
      if (env.usb m.trace legacyRefreshCall).res ≠ 10 then
        (if (env.usb m.trace legacyRefreshCall).res < 0
          then (env.usb m.trace legacyRefreshCall).res else -1,
         { m with trace := m.trace ++ [legacyRefreshCall] })
      else
        (10, { m with
          trace := m.trace ++ [legacyRefreshCall],
          dev := { m.dev with raw_state := (decode_1414
            (fillBuffer (env.uninit m.trace) 10 10 (env.usb m.trace legacyRefreshCall).data)) } }) := by
  unfold update_tilt_state_1414 fnusb_control legacyRefreshCall
  rw [if_pos h]
  simp only [show (128 ≤ 0xC0) = True from by simp, if_true]
  by_cases h1 : (env.usb m.trace (UsbCall.control 0xC0 0x32 0 0 [] 10)).res = 10
  · simp [h1]
  · simp [h1]

theorem get_reply_model (env : Env) (m : Machine) :
    (freenect_tilt_get_reply env m).2.dev = m.dev := by
  rw [get_reply_eq]
  split_ifs <;> rfl

theorem get_reply_model_ne (env : Env) (m : Machine) (h : m.dev.model ≠ KINECT_MODEL_1414) :
    (freenect_tilt_get_reply env m).2.dev.model ≠ KINECT_MODEL_1414 := by
  rw [get_reply_model]; exact h

theorem update_1414_after_reply (env : Env) (a b : Nat) (u : Bool) (md : Nat)
    (rs : freenect_raw_tilt_state) (t : List UsbCall) (h : md ≠ KINECT_MODEL_1414) :
    update_tilt_state_1414 env
        (freenect_tilt_get_reply env ⟨t, a, b, ⟨u, md, rs⟩⟩).1
        (freenect_tilt_get_reply env ⟨t, a, b, ⟨u, md, rs⟩⟩).2
      = freenect_tilt_get_reply env ⟨t, a, b, ⟨u, md, rs⟩⟩ := by
  rw [update_1414_of_ne _ _ _ (get_reply_model_ne env _ h)]

theorem update_k4w_eq (env : Env) (m : Machine)
    (hm : m.dev.usb_motor_dev = true) (hk : m.dev.model = KINECT_MODEL_K4W) :
    freenect_update_tilt_state env m =
      if (env.usb m.trace (refreshWriteCall env m)).res ≠ 0 then
        ((env.usb m.trace (refreshWriteCall env m)).res,
         { m with tag_seq := u32 (m.tag_seq + 1),
                  trace := m.trace ++ [refreshWriteCall env m] })
      else if (env.usb (m.trace ++ [refreshWriteCall env m]) refreshReadCall).res ≠ 0 then
        ((env.usb (m.trace ++ [refreshWriteCall env m]) refreshReadCall).res,
         { m with tag_seq := u32 (m.tag_seq + 1),
                  trace := m.trace ++ [refreshWriteCall env m] ++ [refreshReadCall] })
      else
        freenect_tilt_get_reply env
          { m with
            tag_seq := u32 (m.tag_seq + 1),
            trace := m.trace ++ [refreshWriteCall env m] ++ [refreshReadCall],
            dev := { m.dev with raw_state := (decode_k4w
              (fillBuffer (refresh_buffer env m) 256
                (env.usb (m.trace ++ [refreshWriteCall env m]) refreshReadCall).transferred
                (env.usb (m.trace ++ [refreshWriteCall env m]) refreshReadCall).data)) } } := by
  unfold freenect_update_tilt_state
  rw [if_pos hm, if_pos hk]
  unfold fnusb_bulk refreshWriteCall refreshReadCall
  simp only [show (128 ≤ 0x01) = False from by simp, show (128 ≤ 0x81) = True from by simp,
    if_true, if_false]
  split_ifs with h1 h2
  · rfl
  · rfl
  · have hne : m.dev.model ≠ KINECT_MODEL_1414 := by rw [hk]; exact k4w_ne_1414
    exact update_1414_after_reply env _ _ _ _ _ _ hne

theorem update_legacy_eq (env : Env) (m : Machine)
    (hm : m.dev.usb_motor_dev = true) (hl : m.dev.model = KINECT_MODEL_1414) :
    freenect_update_tilt_state env m = update_tilt_state_1414 env 0 m := by
  unfold freenect_update_tilt_state
  have hk : m.dev.model ≠ KINECT_MODEL_K4W := by rw [hl]; decide
  rw [if_pos hm, if_neg hk]

theorem set_tilt_k4w_eq (env : Env) (m : Machine) (angle : ℚ)
    (hm : m.dev.usb_motor_dev = true) (hk : m.dev.model = KINECT_MODEL_K4W) :
    freenect_set_tilt_degs env m angle =
      if doubleToInt32 angle > 31 ∨ doubleToInt32 angle < -31 then (-1, m)
      else if (env.usb m.trace (setTiltWriteCall m.tag_seq (doubleToInt32 angle))).res ≠ 0 then
        ((env.usb m.trace (setTiltWriteCall m.tag_seq (doubleToInt32 angle))).res,
         { m with tag_seq := u32 (m.tag_seq + 1),
                  trace := m.trace ++ [setTiltWriteCall m.tag_seq (doubleToInt32 angle)] })
      else
        freenect_tilt_get_reply env
          { m with tag_seq := u32 (m.tag_seq + 1),
                   trace := m.trace ++ [setTiltWriteCall m.tag_seq (doubleToInt32 angle)] } := by
  unfold freenect_set_tilt_degs
  rw [if_pos hm, if_pos hk]
  unfold fnusb_bulk setTiltWriteCall
  simp only [show (128 ≤ 0x01) = False from by simp, if_false]

theorem set_tilt_legacy_eq (env : Env) (m : Machine) (angle : ℚ)
    (hm : m.dev.usb_motor_dev = true) (hl : m.dev.model = KINECT_MODEL_1414) :
    freenect_set_tilt_degs env m angle =
      ((env.usb m.trace (legacySetTiltCall (doubleToUInt16 env.ub_uint16 (clampAngle angle * 2)))).res,
       { m with trace := m.trace ++ [legacySetTiltCall (doubleToUInt16 env.ub_uint16 (clampAngle angle * 2))] }) := by
  unfold freenect_set_tilt_degs
  have hk : m.dev.model ≠ KINECT_MODEL_K4W := by rw [hl]; decide
  rw [if_pos hm, if_neg hk, if_pos hl]
  unfold fnusb_control legacySetTiltCall
  simp

theorem set_led_k4w_eq (env : Env) (m : Machine) (option : Nat)
    (hm : m.dev.usb_motor_dev = true) (hk : m.dev.model = KINECT_MODEL_K4W) :
    freenect_set_led env m option =
      if (env.usb m.trace (setLedWriteCall m.tag_seq (led_lookup option KINECT_MODEL_K4W))).res ≠ 0
      then
        ((env.usb m.trace (setLedWriteCall m.tag_seq (led_lookup option KINECT_MODEL_K4W))).res,
         { m with tag_seq := u32 (m.tag_seq + 1),
                  trace := m.trace ++
                    [setLedWriteCall m.tag_seq (led_lookup option KINECT_MODEL_K4W)] })
      else
        freenect_tilt_get_reply env
          { m with tag_seq := u32 (m.tag_seq + 1),
                   trace := m.trace ++
                     [setLedWriteCall m.tag_seq (led_lookup option KINECT_MODEL_K4W)] } := by
  unfold freenect_set_led
  simp only [hk]
  rw [if_pos hm, if_pos trivial]
  unfold fnusb_bulk setLedWriteCall
  simp only [show (128 ≤ 0x01) = False from by simp, if_false]

theorem set_led_legacy_eq (env : Env) (m : Machine) (option : Nat)
    (hm : m.dev.usb_motor_dev = true) (hl : m.dev.model = KINECT_MODEL_1414) :
    freenect_set_led env m option =
      ((env.usb m.trace (legacySetLedCall (toUInt16 (led_lookup option KINECT_MODEL_1414)))).res,
       { m with trace := m.trace ++
          [legacySetLedCall (toUInt16 (led_lookup option KINECT_MODEL_1414))] }) := by
  unfold freenect_set_led
  have hk : KINECT_MODEL_1414 ≠ KINECT_MODEL_K4W := by decide
  simp only [hl]
  rw [if_pos hm, if_neg hk, if_pos trivial]
  unfold fnusb_control legacySetLedCall
  simp

/-! ## Claims on the operations -/

/-- C6, refuted as stated: logical option 1 maps to physical code 3 on the
current revision, not to 1 as the spec-worded table would have it. -/
theorem C6_led_option_one_counterexample :
    led_lookup 1 KINECT_MODEL_K4W = 3 ∧ spec_led_current 1 = 1
    ∧ led_lookup 1 KINECT_MODEL_K4W ≠ spec_led_current 1 := by
  decide

/-- C6, amended: on the current revision (second column of the table) options
0, 3, 5 and 6 map to physical code 1, option 4 maps to 2, option 1 maps to 3
and option 2 maps to 4; the code agrees with the spec-worded mapping on every
option other than 1 and 2. -/
theorem C6_led_translation_current :
    led_lookup 0 KINECT_MODEL_K4W = 1 ∧ led_lookup 1 KINECT_MODEL_K4W = 3
    ∧ led_lookup 2 KINECT_MODEL_K4W = 4 ∧ led_lookup 3 KINECT_MODEL_K4W = 1
    ∧ led_lookup 4 KINECT_MODEL_K4W = 2 ∧ led_lookup 5 KINECT_MODEL_K4W = 1
    ∧ led_lookup 6 KINECT_MODEL_K4W = 1
    ∧ led_lookup 0 KINECT_MODEL_K4W = spec_led_current 0
    ∧ led_lookup 3 KINECT_MODEL_K4W = spec_led_current 3
    ∧ led_lookup 4 KINECT_MODEL_K4W = spec_led_current 4
    ∧ led_lookup 5 KINECT_MODEL_K4W = spec_led_current 5
    ∧ led_lookup 6 KINECT_MODEL_K4W = spec_led_current 6 := by
  decide

theorem doubleToInt32_out_of_range (angle : ℚ)
    (h : truncToInt angle > 31 ∨ truncToInt angle < -31) :
    doubleToInt32 angle > 31 ∨ doubleToInt32 angle < -31 := by
  unfold doubleToInt32
  split_ifs with hr
  · exact h
  · right; decide

/-- C4: on a current-revision device with a motor attached, an angle whose
integer truncation is above 31 or below -31 makes `freenect_set_tilt_degs`
return -1 and leave the whole state as it was: no transport call is recorded,
and `tag_seq`, `tag_next_ack` and the raw tilt state are unchanged. -/
theorem C4_out_of_range_rejected (env : Env) (m : Machine) (angle : ℚ)
    (hm : m.dev.usb_motor_dev = true) (hk : m.dev.model = KINECT_MODEL_K4W)
    (h : truncToInt angle > 31 ∨ truncToInt angle < -31) :
    (freenect_set_tilt_degs env m angle).1 = -1
    ∧ (freenect_set_tilt_degs env m angle).2.trace = m.trace
    ∧ (freenect_set_tilt_degs env m angle).2.tag_seq = m.tag_seq
    ∧ (freenect_set_tilt_degs env m angle).2.tag_next_ack = m.tag_next_ack
    ∧ (freenect_set_tilt_degs env m angle).2.dev.raw_state = m.dev.raw_state
    ∧ (freenect_set_tilt_degs env m angle).2 = m := by
  rw [set_tilt_k4w_eq env m angle hm hk, if_pos (doubleToInt32_out_of_range angle h)]
  exact ⟨rfl, rfl, rfl, rfl, rfl, rfl⟩

theorem truncToInt_32 : truncToInt 32 = 32 := by
  unfold truncToInt
  rw [if_pos (by norm_num)]
  exact Int.floor_intCast (32 : Int)

/-- C4, at a concrete input: 32 degrees on a current-revision device whose
transport would fail every call. -/
theorem C4_out_of_range_rejected_witness :
    (truncToInt 32 > 31 ∨ truncToInt 32 < -31)
    ∧ (freenect_set_tilt_degs (constEnv ⟨-1, 0, []⟩) (initial k4wDev) 32).1 = -1
    ∧ (freenect_set_tilt_degs (constEnv ⟨-1, 0, []⟩) (initial k4wDev) 32).2.trace = [] :=
  ⟨Or.inl (by rw [truncToInt_32]; decide),
   (C4_out_of_range_rejected (constEnv ⟨-1, 0, []⟩) (initial k4wDev) 32 rfl rfl
      (Or.inl (by rw [truncToInt_32]; decide))).1,
   (C4_out_of_range_rejected (constEnv ⟨-1, 0, []⟩) (initial k4wDev) 32 rfl rfl
      (Or.inl (by rw [truncToInt_32]; decide))).2.1⟩

/-- C8: on a legacy device, when the control transfer (request type 0xC0,
request 0x32, length 10) returns anything other than 10, the refresh returns a
strictly negative result (the transport error if negative, otherwise -1), the
one transport call made is that control transfer, and the device handle with
its raw tilt state and both counters are unchanged. -/
theorem C8_legacy_short_read (env : Env) (m : Machine)
    (hm : m.dev.usb_motor_dev = true) (hl : m.dev.model = KINECT_MODEL_1414)
    (h : (env.usb m.trace (UsbCall.control 0xC0 0x32 0 0 [] 10)).res ≠ 10) :
    (freenect_update_tilt_state env m).1 < 0
    ∧ (freenect_update_tilt_state env m).1 =
        (if (env.usb m.trace (UsbCall.control 0xC0 0x32 0 0 [] 10)).res < 0
          then (env.usb m.trace (UsbCall.control 0xC0 0x32 0 0 [] 10)).res else -1)
    ∧ (freenect_update_tilt_state env m).2.dev.raw_state = m.dev.raw_state
    ∧ (freenect_update_tilt_state env m).2.dev = m.dev
    ∧ (freenect_update_tilt_state env m).2.tag_seq = m.tag_seq
    ∧ (freenect_update_tilt_state env m).2.tag_next_ack = m.tag_next_ack
    ∧ (freenect_update_tilt_state env m).2.trace
        = m.trace ++ [UsbCall.control 0xC0 0x32 0 0 [] 10] := by
  rw [update_legacy_eq env m hm hl, update_1414_eq env 0 m hl]
  change (env.usb m.trace legacyRefreshCall).res ≠ 10 at h
  rw [if_pos h]
  refine ⟨?_, rfl, rfl, rfl, rfl, rfl, rfl⟩
  show (if (env.usb m.trace legacyRefreshCall).res < 0
    then (env.usb m.trace legacyRefreshCall).res else -1) < 0
  split_ifs with hneg
  · exact hneg
  · decide

/-- C8, at a concrete input: the control transfer delivers 4 bytes only. -/
theorem C8_legacy_short_read_witness :
    ((constEnv ⟨4, 0, [1, 2, 3, 4]⟩).usb (initial legacyDev).trace
        (UsbCall.control 0xC0 0x32 0 0 [] 10)).res ≠ 10
    ∧ (freenect_update_tilt_state (constEnv ⟨4, 0, [1, 2, 3, 4]⟩) (initial legacyDev)).1 = -1
    ∧ (freenect_update_tilt_state (constEnv ⟨4, 0, [1, 2, 3, 4]⟩)
        (initial legacyDev)).2.dev.raw_state = legacyDev.raw_state :=
  ⟨by decide,
   (C8_legacy_short_read (constEnv ⟨4, 0, [1, 2, 3, 4]⟩) (initial legacyDev) rfl rfl
      (by decide)).2.1,
   (C8_legacy_short_read (constEnv ⟨4, 0, [1, 2, 3, 4]⟩) (initial legacyDev) rfl rfl
      (by decide)).2.2.1⟩

/-! ## Legacy refresh decoding -/

theorem fill_legacy (stack : Buffer) (data : List Nat) (i : Nat) (hlen : data.length = 10)
    (h : i < 10) : fillBuffer stack 10 10 data i = byteOf data i := by
  unfold fillBuffer
  have h1 : i < (10 : Int).toNat := by simpa using h
  rw [if_pos ⟨h1, h, by omega⟩]

theorem byteOf_mod (data : List Nat) (i : Nat) : byteOf data i % 256 = byteOf data i := by
  unfold byteOf
  exact Nat.mod_mod _ _

theorem byteOf_lt (data : List Nat) (i : Nat) : byteOf data i < 256 := by
  unfold byteOf
  exact Nat.mod_lt _ (by decide)

theorem be16_or (x y : Nat) (hy : y < 256) : (x * 256) ||| y = x * 256 + y := by
  have h := Nat.mul_add_lt_is_or (show y < 2 ^ 8 from hy) x
  rw [show (2 : Nat) ^ 8 = 256 from by norm_num, Nat.mul_comm 256 x] at h
  exact h.symm

theorem toInt16_mod (v : Nat) : toInt16 ((v % 65536 : Nat) : Int) = toInt16 (v : Int) := by
  unfold toInt16
  have : (((v % 65536 : Nat) : Int)) % 65536 = (v : Int) % 65536 := by omega
  rw [this]

theorem decode_1414_eq (stack : Buffer) (data : List Nat) (hlen : data.length = 10) :
    decode_1414 (fillBuffer stack 10 10 data) =
      { accelerometer_x := toInt16 ((byteOf data 2 * 256 + byteOf data 3 : Nat) : Int)
        accelerometer_y := toInt16 ((byteOf data 4 * 256 + byteOf data 5 : Nat) : Int)
        accelerometer_z := toInt16 ((byteOf data 6 * 256 + byteOf data 7 : Nat) : Int)
        tilt_angle := toInt8 ((byteOf data 8 : Nat) : Int)
        tilt_status := ((byteOf data 9 : Nat) : Int) } := by
  unfold decode_1414
  simp only [fill_legacy stack data _ hlen (show 2 < 10 by decide),
    fill_legacy stack data _ hlen (show 3 < 10 by decide),
    fill_legacy stack data _ hlen (show 4 < 10 by decide),
    fill_legacy stack data _ hlen (show 5 < 10 by decide),
    fill_legacy stack data _ hlen (show 6 < 10 by decide),
    fill_legacy stack data _ hlen (show 7 < 10 by decide),
    fill_legacy stack data _ hlen (show 8 < 10 by decide),
    fill_legacy stack data _ hlen (show 9 < 10 by decide),
    byteOf_mod, be16_or _ _ (byteOf_lt _ _), toInt16_mod]

theorem update_legacy_ok (env : Env) (m : Machine)
    (hm : m.dev.usb_motor_dev = true) (hl : m.dev.model = KINECT_MODEL_1414)
    (hres : (env.usb m.trace legacyRefreshCall).res = 10)
    (hlen : (env.usb m.trace legacyRefreshCall).data.length = 10) :
    freenect_update_tilt_state env m =
      (10, { m with
        trace := m.trace ++ [legacyRefreshCall],
        dev := { m.dev with raw_state :=
          { accelerometer_x := toInt16 ((byteOf (env.usb m.trace legacyRefreshCall).data 2 * 256
              + byteOf (env.usb m.trace legacyRefreshCall).data 3 : Nat) : Int)
            accelerometer_y := toInt16 ((byteOf (env.usb m.trace legacyRefreshCall).data 4 * 256
              + byteOf (env.usb m.trace legacyRefreshCall).data 5 : Nat) : Int)
            accelerometer_z := toInt16 ((byteOf (env.usb m.trace legacyRefreshCall).data 6 * 256
              + byteOf (env.usb m.trace legacyRefreshCall).data 7 : Nat) : Int)
            tilt_angle := toInt8 ((byteOf (env.usb m.trace legacyRefreshCall).data 8 : Nat) : Int)
            tilt_status := ((byteOf (env.usb m.trace legacyRefreshCall).data 9 : Nat) : Int) } } }) := by
  rw [update_legacy_eq env m hm hl, update_1414_eq env 0 m hl,
    if_neg (not_not.mpr hres), decode_1414_eq _ _ hlen]

/-- C7: on a legacy device, when the control transfer returns 10 with the 10
bytes `b`, the refresh stores `accelerometer_x/y/z` as the signed 16-bit values
of the big-endian pairs (b[2],b[3]), (b[4],b[5]), (b[6],b[7]), `tilt_angle` as
b[8] read as a signed 8-bit value and `tilt_status` as b[9]; a second response
that differs from `b` in bytes 0 and 1 only stores the same state. -/
theorem C7_legacy_refresh_decoding (env : Env) (m : Machine) (b : List Nat)
    (hm : m.dev.usb_motor_dev = true) (hl : m.dev.model = KINECT_MODEL_1414)
    (hres : (env.usb m.trace (UsbCall.control 0xC0 0x32 0 0 [] 10)).res = 10)
    (hb : (env.usb m.trace (UsbCall.control 0xC0 0x32 0 0 [] 10)).data = b)
    (hlen : b.length = 10) :
    (freenect_update_tilt_state env m).2.dev.raw_state =
      { accelerometer_x := toInt16 ((byteOf b 2 * 256 + byteOf b 3 : Nat) : Int)
        accelerometer_y := toInt16 ((byteOf b 4 * 256 + byteOf b 5 : Nat) : Int)
        accelerometer_z := toInt16 ((byteOf b 6 * 256 + byteOf b 7 : Nat) : Int)
        tilt_angle := toInt8 ((byteOf b 8 : Nat) : Int)
        tilt_status := ((byteOf b 9 : Nat) : Int) }
    ∧ ∀ (env2 : Env) (b0 b1 : Nat),
        (env2.usb m.trace (UsbCall.control 0xC0 0x32 0 0 [] 10)).res = 10 →
        (env2.usb m.trace (UsbCall.control 0xC0 0x32 0 0 [] 10)).data
          = b0 :: b1 :: b.drop 2 →
        (freenect_update_tilt_state env2 m).2.dev.raw_state
          = (freenect_update_tilt_state env m).2.dev.raw_state := by
  change (env.usb m.trace legacyRefreshCall).res = 10 at hres
  change (env.usb m.trace legacyRefreshCall).data = b at hb
  have hlen1 : (env.usb m.trace legacyRefreshCall).data.length = 10 := by rw [hb]; exact hlen
  have e1 := update_legacy_ok env m hm hl hres hlen1
  rw [hb] at e1
  constructor
  · rw [e1]
  · intro env2 b0 b1 hres2 hb2
    change (env2.usb m.trace legacyRefreshCall).res = 10 at hres2
    change (env2.usb m.trace legacyRefreshCall).data = b0 :: b1 :: b.drop 2 at hb2
    have hlen2 : (env2.usb m.trace legacyRefreshCall).data.length = 10 := by
      rw [hb2]; simp [hlen]
    have e2 := update_legacy_ok env2 m hm hl hres2 hlen2
    rw [hb2] at e2
    have hbyte : ∀ i, byteOf (b0 :: b1 :: b.drop 2) (i + 2) = byteOf b (i + 2) := by
      intro i
      unfold byteOf
      simp [List.getD_eq_getElem?_getD, Nat.add_comm]
    rw [e1, e2]
    simp only [hbyte 0, hbyte 1, hbyte 2, hbyte 3, hbyte 4, hbyte 5, hbyte 6, hbyte 7]

theorem legacy_sample_state :
    (freenect_update_tilt_state (constEnv ⟨10, 0, legacySample⟩)
        (initial legacyDev)).2.dev.raw_state = ⟨256, 1, 0, 5, 2⟩ := by
  rw [update_legacy_ok (constEnv ⟨10, 0, legacySample⟩) (initial legacyDev) rfl rfl rfl rfl]
  decide

/-- C7, at the input of the scenario: the bytes
`[_,_,0x01,0x00,0x00,0x01,0x00,0x00,0x05,0x02]` give x = 256, y = 1, z = 0,
tilt angle 5 (2.5 degrees) and status 2. -/
theorem C7_legacy_refresh_decoding_witness :
    ((constEnv ⟨10, 0, legacySample⟩).usb (initial legacyDev).trace
        (UsbCall.control 0xC0 0x32 0 0 [] 10)).res = 10
    ∧ legacySample.length = 10
    ∧ (freenect_update_tilt_state (constEnv ⟨10, 0, legacySample⟩)
        (initial legacyDev)).2.dev.raw_state = ⟨256, 1, 0, 5, 2⟩
    ∧ freenect_get_tilt_degs (freenect_update_tilt_state (constEnv ⟨10, 0, legacySample⟩)
        (initial legacyDev)).2.dev.raw_state = 5 / 2 :=
  ⟨rfl, rfl,
   ((C7_legacy_refresh_decoding (constEnv ⟨10, 0, legacySample⟩) (initial legacyDev)
      legacySample rfl rfl rfl rfl rfl).1).trans (by decide),
   by rw [legacy_sample_state]; norm_num [freenect_get_tilt_degs]⟩

/-! ## The stored snapshot -/

/-- C10, refuted as stated: on a current-revision device the command write and
the data read succeed and the ack then fails validation (bad magic); the refresh
returns -1 and the raw tilt state has been overwritten with the payload all the
same. -/
theorem C10_state_overwritten_on_failed_ack_counterexample :
    (freenect_update_tilt_state ackFailEnv (initial k4wDev)).1 = -1
    ∧ (initial k4wDev).dev.raw_state = ⟨0, 0, 0, 0, 0⟩
    ∧ (freenect_update_tilt_state ackFailEnv (initial k4wDev)).2.dev.raw_state
        = ⟨256, 1, 0, 10, 2⟩ := by
  rw [update_k4w_eq _ _ rfl rfl, get_reply_eq]
  decide

/-- C10, amended: when `freenect_update_tilt_state` fails before it decodes a
payload, the raw tilt state is unchanged and the result is nonzero: that is, on
the current revision when the command write or the data read returns a nonzero
transport error, and on the legacy revision when the result is negative.  On
the current revision, once the write and the data read have succeeded, the
decoded payload is stored whatever the ack does. -/
theorem C10_state_kept_on_early_failure (env : Env) (m : Machine)
    (hm : m.dev.usb_motor_dev = true) :
    (m.dev.model = KINECT_MODEL_K4W →
      ((env.usb m.trace (refreshWriteCall env m)).res ≠ 0
        ∨ (env.usb (m.trace ++ [refreshWriteCall env m]) refreshReadCall).res ≠ 0) →
      (freenect_update_tilt_state env m).1 ≠ 0
      ∧ (freenect_update_tilt_state env m).2.dev.raw_state = m.dev.raw_state)
    ∧ (m.dev.model = KINECT_MODEL_1414 → (freenect_update_tilt_state env m).1 < 0 →
      (freenect_update_tilt_state env m).2.dev.raw_state = m.dev.raw_state)
    ∧ (m.dev.model = KINECT_MODEL_K4W →
      (env.usb m.trace (refreshWriteCall env m)).res = 0 →
      (env.usb (m.trace ++ [refreshWriteCall env m]) refreshReadCall).res = 0 →
      (freenect_update_tilt_state env m).2.dev.raw_state =
        decode_k4w (fillBuffer (refresh_buffer env m) 256
          (env.usb (m.trace ++ [refreshWriteCall env m]) refreshReadCall).transferred
          (env.usb (m.trace ++ [refreshWriteCall env m]) refreshReadCall).data)) := by
  refine ⟨?_, ?_, ?_⟩
  · intro hk h
    rw [update_k4w_eq env m hm hk]
    by_cases hw : (env.usb m.trace (refreshWriteCall env m)).res = 0
    · have hr : (env.usb (m.trace ++ [refreshWriteCall env m]) refreshReadCall).res ≠ 0 := by
        rcases h with h | h
        · exact absurd hw h
        · exact h
      rw [if_neg (not_not.mpr hw), if_pos hr]
      exact ⟨hr, rfl⟩
    · rw [if_pos hw]
      exact ⟨hw, rfl⟩
  · intro hl hneg
    rw [update_legacy_eq env m hm hl, update_1414_eq env 0 m hl] at hneg ⊢
    by_cases h10 : (env.usb m.trace legacyRefreshCall).res = 10
    · rw [if_neg (not_not.mpr h10)] at hneg
      have h0 : ¬ ((10 : Int) < 0) := by decide
      exact absurd hneg h0
    · rw [if_pos h10]
  · intro hk hw hr
    rw [update_k4w_eq env m hm hk, if_neg (not_not.mpr hw), if_neg (not_not.mpr hr),
      get_reply_model]

/-- C10, at a concrete input: the command write fails with -1 on a
current-revision device. -/
theorem C10_state_kept_on_early_failure_witness :
    (initial k4wDev).dev.usb_motor_dev = true
    ∧ (initial k4wDev).dev.model = KINECT_MODEL_K4W
    ∧ (failEnv.usb (initial k4wDev).trace (refreshWriteCall failEnv (initial k4wDev))).res ≠ 0
    ∧ (freenect_update_tilt_state failEnv (initial k4wDev)).1 ≠ 0
    ∧ (freenect_update_tilt_state failEnv (initial k4wDev)).2.dev.raw_state
        = (initial k4wDev).dev.raw_state :=
  ⟨rfl, rfl, by decide,
   (C10_state_kept_on_early_failure failEnv (initial k4wDev) rfl).1 rfl (Or.inl (by decide))⟩

/-! ## The tag counters along a run -/

theorem get_reply_counters (env : Env) (m : Machine) :
    (freenect_tilt_get_reply env m).2.tag_seq = m.tag_seq
    ∧ ((freenect_tilt_get_reply env m).2.tag_next_ack = m.tag_next_ack
      ∨ (freenect_tilt_get_reply env m).2.tag_next_ack = u32 (m.tag_next_ack + 1)) := by
  rw [get_reply_eq]
  split_ifs <;> first | exact ⟨rfl, Or.inl rfl⟩ | exact ⟨rfl, Or.inr rfl⟩

theorem reply_after_send (env : Env) (a b : Nat) (d : freenect_device) (t : List UsbCall)
    (m : Machine) (ha : a = u32 (m.tag_seq + 1)) (hb : b = m.tag_next_ack) :
    CounterStep m (freenect_tilt_get_reply env ⟨t, a, b, d⟩).2 := by
  have h := get_reply_counters env ⟨t, a, b, d⟩
  right
  refine ⟨?_, ?_⟩
  · rw [h.1]; exact ha
  · rcases h.2 with h2 | h2
    · left; rw [h2]; exact hb
    · right; rw [h2]; show u32 (b + 1) = u32 (m.tag_next_ack + 1); rw [hb]

theorem update_counters (env : Env) (m : Machine) :
    CounterStep m (freenect_update_tilt_state env m).2 := by
  by_cases hm : m.dev.usb_motor_dev = true
  · by_cases hk : m.dev.model = KINECT_MODEL_K4W
    · rw [update_k4w_eq env m hm hk]
      split_ifs
      · exact Or.inr ⟨rfl, Or.inl rfl⟩
      · exact Or.inr ⟨rfl, Or.inl rfl⟩
      · exact reply_after_send env _ _ _ _ m rfl rfl
    · by_cases hl : m.dev.model = KINECT_MODEL_1414
      · rw [update_legacy_eq env m hm hl, update_1414_eq env 0 m hl]
        split_ifs <;> exact Or.inl ⟨rfl, rfl⟩
      · unfold freenect_update_tilt_state
        rw [if_pos hm, if_neg hk, update_1414_of_ne env 0 m hl]
        exact Or.inl ⟨rfl, rfl⟩
  · unfold freenect_update_tilt_state
    rw [if_neg hm]
    exact Or.inl ⟨rfl, rfl⟩

theorem set_tilt_counters (env : Env) (m : Machine) (angle : ℚ) :
    CounterStep m (freenect_set_tilt_degs env m angle).2 := by
  by_cases hm : m.dev.usb_motor_dev = true
  · by_cases hk : m.dev.model = KINECT_MODEL_K4W
    · rw [set_tilt_k4w_eq env m angle hm hk]
      split_ifs
      · exact Or.inl ⟨rfl, rfl⟩
      · exact Or.inr ⟨rfl, Or.inl rfl⟩
      · exact reply_after_send env _ _ _ _ m rfl rfl
    · by_cases hl : m.dev.model = KINECT_MODEL_1414
      · rw [set_tilt_legacy_eq env m angle hm hl]
        exact Or.inl ⟨rfl, rfl⟩
      · unfold freenect_set_tilt_degs
        rw [if_pos hm, if_neg hk, if_neg hl]
        exact Or.inl ⟨rfl, rfl⟩
  · unfold freenect_set_tilt_degs
    rw [if_neg hm]
    exact Or.inl ⟨rfl, rfl⟩

theorem set_led_counters (env : Env) (m : Machine) (option : Nat) :
    CounterStep m (freenect_set_led env m option).2 := by
  by_cases hm : m.dev.usb_motor_dev = true
  · by_cases hk : m.dev.model = KINECT_MODEL_K4W
    · rw [set_led_k4w_eq env m option hm hk]
      split_ifs
      · exact Or.inr ⟨rfl, Or.inl rfl⟩
      · exact reply_after_send env _ _ _ _ m rfl rfl
    · by_cases hl : m.dev.model = KINECT_MODEL_1414
      · rw [set_led_legacy_eq env m option hm hl]
        exact Or.inl ⟨rfl, rfl⟩
      · unfold freenect_set_led
        simp only []
        rw [if_pos hm, if_neg hk, if_neg hl]
        exact Or.inl ⟨rfl, rfl⟩
  · unfold freenect_set_led
    simp only []
    rw [if_neg hm]
    exact Or.inl ⟨rfl, rfl⟩

theorem step_counters (env : Env) (m : Machine) (op : Op) : CounterStep m (step env m op) := by
  cases op with
  | update => exact update_counters env m
  | set_tilt a => exact set_tilt_counters env m a
  | set_led o => exact set_led_counters env m o

theorem step_keeps_order (env : Env) (m : Machine) (op : Op)
    (h : m.tag_next_ack ≤ m.tag_seq) (hs : m.tag_seq + 1 < 4294967296) :
    (step env m op).tag_next_ack ≤ (step env m op).tag_seq
    ∧ (step env m op).tag_seq ≤ m.tag_seq + 1 := by
  have hc := step_counters env m op
  unfold CounterStep u32 at hc
  omega

theorem run_keeps_order (env : Env) (ops : List Op) :
    ∀ m : Machine, m.tag_next_ack ≤ m.tag_seq → m.tag_seq + ops.length < 4294967296 →
      (run env m ops).tag_next_ack ≤ (run env m ops).tag_seq := by
  induction ops with
  | nil => intro m h _; exact h
  | cons op ops ih =>
    intro m h hs
    have hlen : (op :: ops).length = ops.length + 1 := rfl
    rw [hlen] at hs
    have h1 := step_keeps_order env m op h (by omega)
    have h2 := ih (step env m op) h1.1 (by omega)
    exact h2

theorem step_update_fail (m : Machine)
    (hm : m.dev.usb_motor_dev = true) (hk : m.dev.model = KINECT_MODEL_K4W) :
    (step failEnv m Op.update).tag_seq = u32 (m.tag_seq + 1)
    ∧ (step failEnv m Op.update).tag_next_ack = m.tag_next_ack
    ∧ (step failEnv m Op.update).dev = m.dev := by
  show (freenect_update_tilt_state failEnv m).2.tag_seq = _
    ∧ (freenect_update_tilt_state failEnv m).2.tag_next_ack = _
    ∧ (freenect_update_tilt_state failEnv m).2.dev = _
  rw [update_k4w_eq failEnv m hm hk]
  have hw : (failEnv.usb m.trace (refreshWriteCall failEnv m)).res ≠ 0 := by
    show (-1 : Int) ≠ 0
    decide
  rw [if_pos hw]
  exact ⟨rfl, rfl, rfl⟩

theorem run_update_fail (n : Nat) :
    ∀ m : Machine, m.dev.usb_motor_dev = true → m.dev.model = KINECT_MODEL_K4W →
      m.tag_seq < 4294967296 →
      (run failEnv m (List.replicate n Op.update)).tag_seq = (m.tag_seq + n) % 4294967296
      ∧ (run failEnv m (List.replicate n Op.update)).tag_next_ack = m.tag_next_ack := by
  induction n with
  | zero =>
    intro m _ _ hlt
    refine ⟨?_, rfl⟩
    show m.tag_seq = (m.tag_seq + 0) % 4294967296
    omega
  | succ n ih =>
    intro m hm hk hlt
    have hs := step_update_fail m hm hk
    have hlt1 : (step failEnv m Op.update).tag_seq < 4294967296 := by
      rw [hs.1]; unfold u32; omega
    have h := ih (step failEnv m Op.update) (by rw [hs.2.2]; exact hm)
      (by rw [hs.2.2]; exact hk) hlt1
    have e : run failEnv m (List.replicate (n + 1) Op.update)
        = run failEnv (step failEnv m Op.update) (List.replicate n Op.update) := rfl
    rw [e, h.1, h.2, hs.1, hs.2.1]
    unfold u32
    constructor
    · omega
    · rfl

/-- C3, refuted as stated: from the initial counters (1, 1), after 2^32 - 1
refreshes whose command write fails, the 32-bit `tag_seq` has wrapped to 0 while
`tag_next_ack` is still 1. -/
theorem C3_counters_wrap_counterexample :
    (run failEnv (initial k4wDev) (List.replicate 4294967295 Op.update)).tag_seq = 0
    ∧ (run failEnv (initial k4wDev) (List.replicate 4294967295 Op.update)).tag_next_ack = 1
    ∧ ¬ ((run failEnv (initial k4wDev) (List.replicate 4294967295 Op.update)).tag_next_ack
          ≤ (run failEnv (initial k4wDev) (List.replicate 4294967295 Op.update)).tag_seq) := by
  have h := run_update_fail 4294967295 (initial k4wDev) rfl rfl (by decide)
  have h1 : (run failEnv (initial k4wDev) (List.replicate 4294967295 Op.update)).tag_seq = 0 := by
    rw [h.1]; rfl
  have h2 : (run failEnv (initial k4wDev) (List.replicate 4294967295 Op.update)).tag_next_ack
      = 1 := by
    rw [h.2]; rfl
  refine ⟨h1, h2, ?_⟩
  rw [h1, h2]
  decide

/-- C3, amended: starting from `tag_seq = 1` and `tag_next_ack = 1`, after every
sequence of at most 2^32 - 2 public operations (refresh, set angle, set LED), on
any revision and under any transport behaviour, `tag_next_ack <= tag_seq`. -/
theorem C3_next_ack_le_seq_before_wrap (env : Env) (dev : freenect_device) (ops : List Op)
    (hlen : ops.length + 1 < 4294967296) :
    (run env (initial dev) ops).tag_next_ack ≤ (run env (initial dev) ops).tag_seq := by
  apply run_keeps_order env ops (initial dev)
  · exact Nat.le_refl 1
  · show 1 + ops.length < 4294967296
    omega

/-- C3, at a concrete input: a refresh, a set-angle and a set-LED on a
current-revision device whose acks are well-formed for tag 1. -/
theorem C3_next_ack_le_seq_before_wrap_witness :
    [Op.update, Op.set_tilt 10, Op.set_led 1].length + 1 < 4294967296
    ∧ (run (constEnv ⟨0, 12, goodAck1⟩) (initial k4wDev)
        [Op.update, Op.set_tilt 10, Op.set_led 1]).tag_next_ack
      ≤ (run (constEnv ⟨0, 12, goodAck1⟩) (initial k4wDev)
        [Op.update, Op.set_tilt 10, Op.set_led 1]).tag_seq :=
  ⟨by decide,
   C3_next_ack_le_seq_before_wrap (constEnv ⟨0, 12, goodAck1⟩) k4wDev
     [Op.update, Op.set_tilt 10, Op.set_led 1] (by decide)⟩

/-! ## Set-then-refresh round trip -/

theorem truncToInt_bounds (q : ℚ) (n : Int) (h1 : -(n : ℚ) ≤ q) (h2 : q ≤ n) :
    -n ≤ truncToInt q ∧ truncToInt q ≤ n := by
  unfold truncToInt
  split_ifs with h
  · constructor
    · have h0 : (0 : ℚ) ≤ n := le_trans h h2
      have h0n : (0 : Int) ≤ n := by exact_mod_cast h0
      have := Int.floor_nonneg.mpr h
      omega
    · have := Int.floor_le q
      have h3 : ((⌊q⌋ : Int) : ℚ) ≤ n := le_trans this h2
      exact_mod_cast h3
  · constructor
    · have := Int.le_ceil q
      have h3 : ((-n : Int) : ℚ) ≤ ((⌈q⌉ : Int) : ℚ) := by push_cast; linarith
      exact_mod_cast h3
    · have h3 : ⌈q⌉ ≤ 0 := Int.ceil_le.mpr (by push_cast; linarith)
      have h0 : (0 : ℚ) ≤ n := by linarith
      have h0n : (0 : Int) ≤ n := by exact_mod_cast h0
      omega

theorem truncToInt_63_4 : truncToInt (63 / 4) = 15 := by
  unfold truncToInt
  rw [if_pos (by norm_num), Int.floor_eq_iff]
  norm_num

theorem doubleToInt32_in_range (a : ℚ) (h1 : -31 ≤ a) (h2 : a ≤ 31) :
    doubleToInt32 a = truncToInt a ∧ -31 ≤ truncToInt a ∧ truncToInt a ≤ 31 := by
  have hb := truncToInt_bounds a 31 (by push_cast; linarith) (by push_cast; linarith)
  refine ⟨?_, hb.1, hb.2⟩
  unfold doubleToInt32
  rw [if_pos ⟨by omega, by omega⟩]

theorem toInt32_toUInt32 (t : Int) (h1 : -2147483648 ≤ t) (h2 : t < 2147483648) :
    toInt32 ((toUInt32 t : Nat) : Int) = t := by
  unfold toInt32 toUInt32
  rw [Int.toNat_of_nonneg (Int.emod_nonneg _ (by decide))]
  split_ifs <;> omega

theorem toInt8_small (t : Int) (h1 : -128 ≤ t) (h2 : t < 128) : toInt8 t = t := by
  unfold toInt8
  split_ifs <;> omega

theorem fill_of_lt (buf : Buffer) (len : Nat) (count : Int) (data : List Nat) (i : Nat)
    (h1 : i < count.toNat) (h2 : i < len) (h3 : i < data.length) :
    fillBuffer buf len count data i = byteOf data i := by
  unfold fillBuffer
  rw [if_pos ⟨h1, h2, h3⟩]

theorem le32_fill (buf : Buffer) (len : Nat) (count : Int) (data : List Nat) (off : Nat)
    (h1 : off + 3 < count.toNat) (h2 : off + 3 < len) (h3 : off + 3 < data.length) :
    le32 (fillBuffer buf len count data) off = le32Of data off := by
  unfold le32Of le32
  rw [fill_of_lt buf len count data off (by omega) (by omega) (by omega),
    fill_of_lt buf len count data (off + 1) (by omega) (by omega) (by omega),
    fill_of_lt buf len count data (off + 2) (by omega) (by omega) (by omega),
    fill_of_lt buf len count data (off + 3) h1 h2 h3]

theorem set_tilt_dev (env : Env) (m : Machine) (angle : ℚ) :
    (freenect_set_tilt_degs env m angle).2.dev = m.dev := by
  by_cases hm : m.dev.usb_motor_dev = true
  · by_cases hk : m.dev.model = KINECT_MODEL_K4W
    · rw [set_tilt_k4w_eq env m angle hm hk]
      split_ifs
      · rfl
      · rfl
      · rw [get_reply_model]
    · by_cases hl : m.dev.model = KINECT_MODEL_1414
      · rw [set_tilt_legacy_eq env m angle hm hl]
      · unfold freenect_set_tilt_degs
        rw [if_pos hm, if_neg hk, if_neg hl]
  · unfold freenect_set_tilt_degs
    rw [if_neg hm]

theorem doubleToInt32_63_4 : doubleToInt32 (63 / 4) = 15 := by
  rw [(doubleToInt32_in_range (63 / 4) (by norm_num) (by norm_num)).1, truncToInt_63_4]

/-- C9, the code at the failing input: on a current-revision device every
command write succeeds and the ack read succeeds but delivers 11 bytes; set-LED,
set-angle and refresh all return 0, the success value, although the ack has the
wrong length. -/
theorem C9_short_ack_returns_success :
    (shortAckEnv.usb [] ackCall).res = 0
    ∧ (shortAckEnv.usb [] ackCall).transferred = 11
    ∧ (freenect_set_led shortAckEnv (initial k4wDev) 1).1 = 0
    ∧ (freenect_set_tilt_degs shortAckEnv (initial k4wDev) (63 / 4)).1 = 0
    ∧ (freenect_update_tilt_state shortAckEnv (initial k4wDev)).1 = 0 := by
  refine ⟨rfl, rfl, ?_, ?_, ?_⟩
  · rw [set_led_k4w_eq _ _ _ rfl rfl, get_reply_eq]
    rfl
  · rw [set_tilt_k4w_eq _ _ _ rfl rfl, doubleToInt32_63_4, get_reply_eq]
    rfl
  · rw [update_k4w_eq _ _ rfl rfl, get_reply_eq]
    rfl

/-! ## Command frames on the wire -/

theorem map_range_getD (l : List Nat) (n : Nat) (h : l.length ≤ n) :
    (List.range n).map (fun i => l.getD i 0) = l ++ List.replicate (n - l.length) 0 := by
  apply List.ext_getElem
  · simp; omega
  · intro i h1 h2
    simp only [List.getElem_map, List.getElem_range, List.getElem_append]
    by_cases hi : i < l.length
    · simp [hi, List.getD_eq_getElem?_getD]
    · simp [hi, List.getD_eq_getElem?_getD]
      rw [List.getElem?_eq_none (by omega)]
      rfl

theorem bytes_length (c : motor_command) : c.bytes.length = 20 := by
  simp [motor_command.bytes, fn_le32]

theorem set_tilt_payload (tag : Nat) (t : Int) :
    (List.range 56).map (set_tilt_buffer tag t) = setAngleFrame tag t := by
  unfold set_tilt_buffer setAngleFrame
  simp only []
  rw [map_range_getD _ 56 (by rw [bytes_length]; decide), bytes_length]
  simp only [motor_command.bytes]

theorem set_led_payload (tag : Nat) (o : Int) :
    (List.range 20).map (set_led_buffer tag o) = setLedFrame tag o := by
  unfold set_led_buffer setLedFrame
  simp only []
  rw [map_range_getD _ 20 (by rw [bytes_length]), bytes_length]
  simp only [motor_command.bytes]
  exact List.append_nil _

theorem setTiltWriteCall_eq (tag : Nat) (t : Int) :
    setTiltWriteCall tag t = UsbCall.bulk 0x01 (setAngleFrame tag t) 56 := by
  unfold setTiltWriteCall
  rw [set_tilt_payload]

theorem setLedWriteCall_eq (tag : Nat) (o : Int) :
    setLedWriteCall tag o = UsbCall.bulk 0x01 (setLedFrame tag o) 20 := by
  unfold setLedWriteCall
  rw [set_led_payload]

theorem le32Of_fields (a b : Nat) (rest : List Nat) :
    le32Of (fn_le32 a ++ fn_le32 b ++ rest) 0 = a % 4294967296
    ∧ le32Of (fn_le32 a ++ fn_le32 b ++ rest) 4 = b % 4294967296 := by
  simp only [le32Of, le32, byteOf, fn_le32, List.cons_append, List.nil_append,
    List.getD_cons_zero, List.getD_cons_succ]
  refine ⟨?_, ?_⟩ <;> omega

theorem le32Of_fields5 (a b c d e : Nat) (rest : List Nat) :
    le32Of (fn_le32 a ++ fn_le32 b ++ fn_le32 c ++ fn_le32 d ++ fn_le32 e ++ rest) 0
      = a % 4294967296
    ∧ le32Of (fn_le32 a ++ fn_le32 b ++ fn_le32 c ++ fn_le32 d ++ fn_le32 e ++ rest) 4
      = b % 4294967296
    ∧ le32Of (fn_le32 a ++ fn_le32 b ++ fn_le32 c ++ fn_le32 d ++ fn_le32 e ++ rest) 8
      = c % 4294967296
    ∧ le32Of (fn_le32 a ++ fn_le32 b ++ fn_le32 c ++ fn_le32 d ++ fn_le32 e ++ rest) 12
      = d % 4294967296
    ∧ le32Of (fn_le32 a ++ fn_le32 b ++ fn_le32 c ++ fn_le32 d ++ fn_le32 e ++ rest) 16
      = e % 4294967296 := by
  simp only [le32Of, le32, byteOf, fn_le32, List.cons_append, List.nil_append,
    List.getD_cons_zero, List.getD_cons_succ]
  refine ⟨?_, ?_, ?_, ?_, ?_⟩ <;> omega

theorem get_reply_trace (env : Env) (m : Machine) :
    (freenect_tilt_get_reply env m).2.trace = m.trace ++ [ackCall] := by
  rw [get_reply_eq]
  split_ifs <;> rfl

theorem doubleToInt32_of_small (a : ℚ) (h1 : -31 ≤ truncToInt a) (h2 : truncToInt a ≤ 31) :
    doubleToInt32 a = truncToInt a := by
  unfold doubleToInt32
  rw [if_pos ⟨by omega, by omega⟩]

theorem setAngleFrame_length (tag : Nat) (t : Int) : (setAngleFrame tag t).length = 56 := by
  simp [setAngleFrame, fn_le32]

theorem setAngleFrame_tail (tag : Nat) (t : Int) :
    (setAngleFrame tag t).drop 20 = List.replicate 36 0 := by
  unfold setAngleFrame
  exact List.drop_left' (by simp [fn_le32])

/-- C11: on a current-revision device with a motor, for every angle whose
integer truncation `t` lies in [-31, 31], `freenect_set_tilt_degs` makes its
first and only bulk write to endpoint 0x01 with exactly 56 bytes: the
little-endian fields magic = 0x06022009, tag = `tag_seq` before the call,
arg1 = 0, opcode = 0x803B and arg2 = `t` in two's complement, then 36 zero
bytes; when that write succeeds the next and last call is the ack read, and the
result is that of validating the ack; when it fails no ack is read. -/
theorem C11_set_angle_frame (env : Env) (m : Machine) (a : ℚ)
    (hm : m.dev.usb_motor_dev = true) (hk : m.dev.model = KINECT_MODEL_K4W)
    (h1 : -31 ≤ truncToInt a) (h2 : truncToInt a ≤ 31) :
    (setAngleFrame m.tag_seq (truncToInt a)).length = 56
    ∧ (setAngleFrame m.tag_seq (truncToInt a)).take 20
        = fn_le32 0x06022009 ++ fn_le32 m.tag_seq ++ fn_le32 0 ++ fn_le32 0x803B
            ++ fn_le32 (toUInt32 (truncToInt a))
    ∧ (setAngleFrame m.tag_seq (truncToInt a)).drop 20 = List.replicate 36 0
    ∧ le32Of (setAngleFrame m.tag_seq (truncToInt a)) 0 = 0x06022009
    ∧ le32Of (setAngleFrame m.tag_seq (truncToInt a)) 4 = m.tag_seq % 4294967296
    ∧ le32Of (setAngleFrame m.tag_seq (truncToInt a)) 8 = 0
    ∧ le32Of (setAngleFrame m.tag_seq (truncToInt a)) 12 = 0x803B
    ∧ toInt32 (le32Of (setAngleFrame m.tag_seq (truncToInt a)) 16 : Nat) = truncToInt a
    ∧ ((env.usb m.trace (UsbCall.bulk 0x01 (setAngleFrame m.tag_seq (truncToInt a)) 56)).res ≠ 0 →
        (freenect_set_tilt_degs env m a).2.trace
          = m.trace ++ [UsbCall.bulk 0x01 (setAngleFrame m.tag_seq (truncToInt a)) 56])
    ∧ ((env.usb m.trace (UsbCall.bulk 0x01 (setAngleFrame m.tag_seq (truncToInt a)) 56)).res = 0 →
        (freenect_set_tilt_degs env m a).2.trace
          = m.trace ++ [UsbCall.bulk 0x01 (setAngleFrame m.tag_seq (truncToInt a)) 56]
              ++ [UsbCall.bulk 0x81 [] 1024]
        ∧ freenect_set_tilt_degs env m a
          = freenect_tilt_get_reply env
              { m with tag_seq := u32 (m.tag_seq + 1),
                       trace := m.trace
                         ++ [UsbCall.bulk 0x01 (setAngleFrame m.tag_seq (truncToInt a)) 56] }) := by
  have hf := le32Of_fields5 0x06022009 m.tag_seq 0 0x803B (toUInt32 (truncToInt a))
    (List.replicate 36 0)
  have hu : toUInt32 (truncToInt a) % 4294967296 = toUInt32 (truncToInt a) := by
    unfold toUInt32
    omega
  have hlow : ¬ (truncToInt a > 31 ∨ truncToInt a < -31) := by omega
  refine ⟨setAngleFrame_length _ _, ?_, setAngleFrame_tail _ _, hf.1, hf.2.1, hf.2.2.1,
    hf.2.2.2.1, ?_, ?_, ?_⟩
  · unfold setAngleFrame
    exact List.take_left' (by simp [fn_le32])
  · show toInt32 (le32Of (fn_le32 0x06022009 ++ fn_le32 m.tag_seq ++ fn_le32 0 ++ fn_le32 0x803B
      ++ fn_le32 (toUInt32 (truncToInt a)) ++ List.replicate 36 0) 16 : Nat) = truncToInt a
    rw [hf.2.2.2.2, hu, toInt32_toUInt32 _ (by omega) (by omega)]
  · intro hw
    rw [set_tilt_k4w_eq env m a hm hk, doubleToInt32_of_small a h1 h2, if_neg hlow,
      setTiltWriteCall_eq, if_pos hw]
  · intro hw
    rw [set_tilt_k4w_eq env m a hm hk, doubleToInt32_of_small a h1 h2, if_neg hlow,
      setTiltWriteCall_eq, if_neg (not_not.mpr hw)]
    refine ⟨?_, rfl⟩
    rw [get_reply_trace]
    rfl

/-- C11, at a concrete input: 15.75 degrees in the initial state; the frame
carries tag 1 and arg2 = 15. -/
theorem C11_set_angle_frame_witness :
    (initial k4wDev).dev.usb_motor_dev = true
    ∧ (initial k4wDev).dev.model = KINECT_MODEL_K4W
    ∧ -31 ≤ truncToInt (63 / 4) ∧ truncToInt (63 / 4) ≤ 31
    ∧ le32Of (setAngleFrame (initial k4wDev).tag_seq (truncToInt (63 / 4))) 4
        = (initial k4wDev).tag_seq % 4294967296
    ∧ toInt32 (le32Of (setAngleFrame (initial k4wDev).tag_seq (truncToInt (63 / 4))) 16 : Nat)
        = truncToInt (63 / 4) :=
  ⟨rfl, rfl, by rw [truncToInt_63_4]; decide, by rw [truncToInt_63_4]; decide,
   (C11_set_angle_frame echoEnv (initial k4wDev) (63 / 4) rfl rfl
      (by rw [truncToInt_63_4]; decide) (by rw [truncToInt_63_4]; decide)).2.2.2.2.1,
   (C11_set_angle_frame echoEnv (initial k4wDev) (63 / 4) rfl rfl
      (by rw [truncToInt_63_4]; decide) (by rw [truncToInt_63_4]; decide)).2.2.2.2.2.2.2.1⟩

/-! ## Current-revision refresh decoding -/

theorem map_range_getD_take (l : List Nat) (n : Nat) (h : n ≤ l.length) :
    (List.range n).map (fun i => l.getD i 0) = l.take n := by
  apply List.ext_getElem
  · simp; omega
  · intro i h1 h2
    have hi : i < l.length := by
      simp at h1
      omega
    simp [hi, List.getD_eq_getElem?_getD]

theorem refresh_payload (env : Env) (m : Machine) :
    (List.range 16).map (refresh_buffer env m) = refreshFrame m.tag_seq := by
  have h1 : (List.range 16).map (refresh_buffer env m)
      = (List.range 16).map
          (fun i => (motor_command.bytes ⟨0x06022009, m.tag_seq, 0x68, 0x8032, 0⟩).getD i 0) := by
    apply List.map_congr_left
    intro i hi
    have hi16 : i < 16 := List.mem_range.mp hi
    show (if i < 16 then
        (motor_command.bytes ⟨0x06022009, m.tag_seq, 0x68, 0x8032, 0⟩).getD i 0
      else env.uninit m.trace i) = _
    rw [if_pos hi16]
  rw [h1, map_range_getD_take _ 16 (by rw [bytes_length]; decide)]
  unfold refreshFrame
  simp only [motor_command.bytes]
  rw [List.take_left' (by simp [fn_le32])]
  simp only [List.append_assoc]

theorem refreshWriteCall_eq (env : Env) (m : Machine) :
    refreshWriteCall env m = UsbCall.bulk 0x01 (refreshFrame m.tag_seq) 16 := by
  unfold refreshWriteCall
  rw [refresh_payload]

theorem toInt16_toInt32 (v : Int) : toInt16 (toInt32 v) = toInt16 v := by
  unfold toInt16 toInt32
  split_ifs <;> omega

theorem decode_k4w_fill (buf : Buffer) (count : Int) (data : List Nat)
    (hc : 36 ≤ count) (hl : 36 ≤ data.length) :
    decode_k4w (fillBuffer buf 256 count data) =
      { accelerometer_x := toInt16 (le32Of data 16 : Nat)
        accelerometer_y := toInt16 (le32Of data 20 : Nat)
        accelerometer_z := toInt16 (le32Of data 24 : Nat)
        tilt_angle := toInt8 (toInt8 (toInt32 (le32Of data 28 : Nat)) * 2)
        tilt_status := toInt32 (le32Of data 32 : Nat) } := by
  unfold decode_k4w
  simp only []
  rw [le32_fill buf 256 count data 16 (by omega) (by omega) (by omega),
    le32_fill buf 256 count data 20 (by omega) (by omega) (by omega),
    le32_fill buf 256 count data 24 (by omega) (by omega) (by omega),
    le32_fill buf 256 count data 28 (by omega) (by omega) (by omega),
    le32_fill buf 256 count data 32 (by omega) (by omega) (by omega)]
  simp only [toInt16_toInt32]

theorem update_k4w_state (env : Env) (m : Machine)
    (hm : m.dev.usb_motor_dev = true) (hk : m.dev.model = KINECT_MODEL_K4W)
    (hw : (env.usb m.trace (UsbCall.bulk 0x01 (refreshFrame m.tag_seq) 16)).res = 0)
    (hr : (env.usb (m.trace ++ [UsbCall.bulk 0x01 (refreshFrame m.tag_seq) 16])
        (UsbCall.bulk 0x81 [] 256)).res = 0)
    (hc : 36 ≤ (env.usb (m.trace ++ [UsbCall.bulk 0x01 (refreshFrame m.tag_seq) 16])
        (UsbCall.bulk 0x81 [] 256)).transferred)
    (hl : 36 ≤ (env.usb (m.trace ++ [UsbCall.bulk 0x01 (refreshFrame m.tag_seq) 16])
        (UsbCall.bulk 0x81 [] 256)).data.length) :
    (freenect_update_tilt_state env m).2.dev.raw_state =
      { accelerometer_x := toInt16 (le32Of (env.usb (m.trace
            ++ [UsbCall.bulk 0x01 (refreshFrame m.tag_seq) 16]) (UsbCall.bulk 0x81 [] 256)).data 16 : Nat)
        accelerometer_y := toInt16 (le32Of (env.usb (m.trace
            ++ [UsbCall.bulk 0x01 (refreshFrame m.tag_seq) 16]) (UsbCall.bulk 0x81 [] 256)).data 20 : Nat)
        accelerometer_z := toInt16 (le32Of (env.usb (m.trace
            ++ [UsbCall.bulk 0x01 (refreshFrame m.tag_seq) 16]) (UsbCall.bulk 0x81 [] 256)).data 24 : Nat)
        tilt_angle := toInt8 (toInt8 (toInt32 (le32Of (env.usb (m.trace
            ++ [UsbCall.bulk 0x01 (refreshFrame m.tag_seq) 16]) (UsbCall.bulk 0x81 [] 256)).data 28 : Nat)) * 2)
        tilt_status := toInt32 (le32Of (env.usb (m.trace
            ++ [UsbCall.bulk 0x01 (refreshFrame m.tag_seq) 16]) (UsbCall.bulk 0x81 [] 256)).data 32 : Nat) } := by
  rw [update_k4w_eq env m hm hk, refreshWriteCall_eq]
  change (env.usb (m.trace ++ [UsbCall.bulk 0x01 (refreshFrame m.tag_seq) 16])
    refreshReadCall).res = 0 at hr
  change 36 ≤ (env.usb (m.trace ++ [UsbCall.bulk 0x01 (refreshFrame m.tag_seq) 16])
    refreshReadCall).transferred at hc
  change 36 ≤ (env.usb (m.trace ++ [UsbCall.bulk 0x01 (refreshFrame m.tag_seq) 16])
    refreshReadCall).data.length at hl
  rw [if_neg (not_not.mpr hw), if_neg (not_not.mpr hr), get_reply_model,
    decode_k4w_fill _ _ _ hc hl]
  rfl

theorem le32Of_congr (d1 d2 : List Nat) (off : Nat)
    (h : ∀ j, j < 4 → byteOf d1 (off + j) = byteOf d2 (off + j)) :
    le32Of d1 off = le32Of d2 off := by
  unfold le32Of le32
  have h0 := h 0 (by decide)
  rw [Nat.add_zero] at h0
  rw [h0, h 1 (by decide), h 2 (by decide), h 3 (by decide)]

/-- C12: on a current-revision device, when the command write and the data read
succeed and the response has at least 36 bytes, the refresh stores
`accelerometer_x/y/z` as the low 16 bits, read as signed, of the little-endian
words at offsets 16, 20 and 24 and `tilt_status` as the 32-bit word at offset 32;
a second response that agrees on bytes 16..35 stores the same state, whatever
its bytes 0..15 and its bytes from offset 36 on. -/
theorem C12_current_refresh_accel_status (env : Env) (m : Machine)
    (hm : m.dev.usb_motor_dev = true) (hk : m.dev.model = KINECT_MODEL_K4W)
    (hw : (env.usb m.trace (UsbCall.bulk 0x01 (refreshFrame m.tag_seq) 16)).res = 0)
    (hr : (env.usb (m.trace ++ [UsbCall.bulk 0x01 (refreshFrame m.tag_seq) 16])
        (UsbCall.bulk 0x81 [] 256)).res = 0)
    (hc : 36 ≤ (env.usb (m.trace ++ [UsbCall.bulk 0x01 (refreshFrame m.tag_seq) 16])
        (UsbCall.bulk 0x81 [] 256)).transferred)
    (hl : 36 ≤ (env.usb (m.trace ++ [UsbCall.bulk 0x01 (refreshFrame m.tag_seq) 16])
        (UsbCall.bulk 0x81 [] 256)).data.length) :
    (freenect_update_tilt_state env m).2.dev.raw_state.accelerometer_x
        = toInt16 (le32Of (env.usb (m.trace ++ [UsbCall.bulk 0x01 (refreshFrame m.tag_seq) 16])
            (UsbCall.bulk 0x81 [] 256)).data 16 : Nat)
    ∧ (freenect_update_tilt_state env m).2.dev.raw_state.accelerometer_y
        = toInt16 (le32Of (env.usb (m.trace ++ [UsbCall.bulk 0x01 (refreshFrame m.tag_seq) 16])
            (UsbCall.bulk 0x81 [] 256)).data 20 : Nat)
    ∧ (freenect_update_tilt_state env m).2.dev.raw_state.accelerometer_z
        = toInt16 (le32Of (env.usb (m.trace ++ [UsbCall.bulk 0x01 (refreshFrame m.tag_seq) 16])
            (UsbCall.bulk 0x81 [] 256)).data 24 : Nat)
    ∧ (freenect_update_tilt_state env m).2.dev.raw_state.tilt_status
        = toInt32 (le32Of (env.usb (m.trace ++ [UsbCall.bulk 0x01 (refreshFrame m.tag_seq) 16])
            (UsbCall.bulk 0x81 [] 256)).data 32 : Nat)
    ∧ ∀ env2 : Env,
        (env2.usb m.trace (UsbCall.bulk 0x01 (refreshFrame m.tag_seq) 16)).res = 0 →
        (env2.usb (m.trace ++ [UsbCall.bulk 0x01 (refreshFrame m.tag_seq) 16])
          (UsbCall.bulk 0x81 [] 256)).res = 0 →
        36 ≤ (env2.usb (m.trace ++ [UsbCall.bulk 0x01 (refreshFrame m.tag_seq) 16])
          (UsbCall.bulk 0x81 [] 256)).transferred →
        36 ≤ (env2.usb (m.trace ++ [UsbCall.bulk 0x01 (refreshFrame m.tag_seq) 16])
          (UsbCall.bulk 0x81 [] 256)).data.length →
        (∀ i, 16 ≤ i → i < 36 →
          byteOf (env2.usb (m.trace ++ [UsbCall.bulk 0x01 (refreshFrame m.tag_seq) 16])
            (UsbCall.bulk 0x81 [] 256)).data i
          = byteOf (env.usb (m.trace ++ [UsbCall.bulk 0x01 (refreshFrame m.tag_seq) 16])
            (UsbCall.bulk 0x81 [] 256)).data i) →
        (freenect_update_tilt_state env2 m).2.dev.raw_state
          = (freenect_update_tilt_state env m).2.dev.raw_state := by
  have e := update_k4w_state env m hm hk hw hr hc hl
  refine ⟨by rw [e], by rw [e], by rw [e], by rw [e], ?_⟩
  intro env2 hw2 hr2 hc2 hl2 hag
  have e2 := update_k4w_state env2 m hm hk hw2 hr2 hc2 hl2
  rw [e, e2,
    le32Of_congr _ _ 16 (fun j hj => hag (16 + j) (by omega) (by omega)),
    le32Of_congr _ _ 20 (fun j hj => hag (20 + j) (by omega) (by omega)),
    le32Of_congr _ _ 24 (fun j hj => hag (24 + j) (by omega) (by omega)),
    le32Of_congr _ _ 28 (fun j hj => hag (28 + j) (by omega) (by omega)),
    le32Of_congr _ _ 32 (fun j hj => hag (32 + j) (by omega) (by omega))]

/-- C12, at a concrete input: the 36-byte payload with x = 256, y = 1, z = 0 and
status = 2. -/
theorem C12_current_refresh_accel_status_witness :
    (sampleEnv.usb (initial k4wDev).trace
        (UsbCall.bulk 0x01 (refreshFrame (initial k4wDev).tag_seq) 16)).res = 0
    ∧ (36 : Int) ≤ (sampleEnv.usb ((initial k4wDev).trace
        ++ [UsbCall.bulk 0x01 (refreshFrame (initial k4wDev).tag_seq) 16])
        (UsbCall.bulk 0x81 [] 256)).transferred
    ∧ (freenect_update_tilt_state sampleEnv (initial k4wDev)).2.dev.raw_state.accelerometer_x
        = 256
    ∧ (freenect_update_tilt_state sampleEnv (initial k4wDev)).2.dev.raw_state.tilt_status
        = 2 :=
  ⟨rfl, by decide,
   ((C12_current_refresh_accel_status sampleEnv (initial k4wDev) rfl rfl rfl rfl
      (by decide) (by decide)).1).trans (by decide),
   ((C12_current_refresh_accel_status sampleEnv (initial k4wDev) rfl rfl rfl rfl
      (by decide) (by decide)).2.2.2.1).trans (by decide)⟩

/-- C13, refuted as stated: the refresh succeeds on a payload whose tilt word at
offset 28 is 5; truncated to a signed 8-bit value that is 5, but the tilt angle
stored is 10. -/
theorem C13_tilt_doubled_counterexample :
    (freenect_update_tilt_state sampleEnv (initial k4wDev)).1 = 0
    ∧ toInt8 (le32Of k4wSample 28 : Nat) = 5
    ∧ (freenect_update_tilt_state sampleEnv (initial k4wDev)).2.dev.raw_state.tilt_angle = 10
    ∧ (freenect_update_tilt_state sampleEnv (initial k4wDev)).2.dev.raw_state.tilt_angle
        ≠ toInt8 (le32Of k4wSample 28 : Nat) := by
  rw [update_k4w_eq _ _ rfl rfl, get_reply_eq]
  decide

/-- C13, amended: on a current-revision device, when the command write and the
data read succeed and the response has at least 36 bytes, the refresh stores as
tilt angle the little-endian 32-bit tilt word at offset 28 truncated to a signed
8-bit value, doubled, and truncated again to a signed 8-bit value; for a tilt
word between -64 and 63 that is twice the tilt word (half-degree units). -/
theorem C13_current_refresh_tilt (env : Env) (m : Machine)
    (hm : m.dev.usb_motor_dev = true) (hk : m.dev.model = KINECT_MODEL_K4W)
    (hw : (env.usb m.trace (UsbCall.bulk 0x01 (refreshFrame m.tag_seq) 16)).res = 0)
    (hr : (env.usb (m.trace ++ [UsbCall.bulk 0x01 (refreshFrame m.tag_seq) 16])
        (UsbCall.bulk 0x81 [] 256)).res = 0)
    (hc : 36 ≤ (env.usb (m.trace ++ [UsbCall.bulk 0x01 (refreshFrame m.tag_seq) 16])
        (UsbCall.bulk 0x81 [] 256)).transferred)
    (hl : 36 ≤ (env.usb (m.trace ++ [UsbCall.bulk 0x01 (refreshFrame m.tag_seq) 16])
        (UsbCall.bulk 0x81 [] 256)).data.length) :
    (freenect_update_tilt_state env m).2.dev.raw_state.tilt_angle
        = toInt8 (toInt8 (toInt32 (le32Of (env.usb (m.trace
            ++ [UsbCall.bulk 0x01 (refreshFrame m.tag_seq) 16])
            (UsbCall.bulk 0x81 [] 256)).data 28 : Nat)) * 2)
    ∧ (-64 ≤ toInt32 (le32Of (env.usb (m.trace
            ++ [UsbCall.bulk 0x01 (refreshFrame m.tag_seq) 16])
            (UsbCall.bulk 0x81 [] 256)).data 28 : Nat) →
        toInt32 (le32Of (env.usb (m.trace
            ++ [UsbCall.bulk 0x01 (refreshFrame m.tag_seq) 16])
            (UsbCall.bulk 0x81 [] 256)).data 28 : Nat) ≤ 63 →
        (freenect_update_tilt_state env m).2.dev.raw_state.tilt_angle
          = 2 * toInt32 (le32Of (env.usb (m.trace
            ++ [UsbCall.bulk 0x01 (refreshFrame m.tag_seq) 16])
            (UsbCall.bulk 0x81 [] 256)).data 28 : Nat)) := by
  have e := update_k4w_state env m hm hk hw hr hc hl
  have ht : (freenect_update_tilt_state env m).2.dev.raw_state.tilt_angle
      = toInt8 (toInt8 (toInt32 (le32Of (env.usb (m.trace
          ++ [UsbCall.bulk 0x01 (refreshFrame m.tag_seq) 16])
          (UsbCall.bulk 0x81 [] 256)).data 28 : Nat)) * 2) := by rw [e]
  refine ⟨ht, ?_⟩
  intro h1 h2
  rw [ht]
  generalize toInt32 (le32Of (env.usb (m.trace
      ++ [UsbCall.bulk 0x01 (refreshFrame m.tag_seq) 16])
      (UsbCall.bulk 0x81 [] 256)).data 28 : Nat) = w at h1 h2 ⊢
  rw [toInt8_small w (by omega) (by omega), toInt8_small (w * 2) (by omega) (by omega)]
  omega

/-- C13, at a concrete input: the payload whose tilt word is 5 stores the tilt
angle 10. -/
theorem C13_current_refresh_tilt_witness :
    (sampleEnv.usb (initial k4wDev).trace
        (UsbCall.bulk 0x01 (refreshFrame (initial k4wDev).tag_seq) 16)).res = 0
    ∧ (36 : Int) ≤ (sampleEnv.usb ((initial k4wDev).trace
        ++ [UsbCall.bulk 0x01 (refreshFrame (initial k4wDev).tag_seq) 16])
        (UsbCall.bulk 0x81 [] 256)).transferred
    ∧ (freenect_update_tilt_state sampleEnv (initial k4wDev)).2.dev.raw_state.tilt_angle = 10 :=
  ⟨rfl, by decide,
   ((C13_current_refresh_tilt sampleEnv (initial k4wDev) rfl rfl rfl rfl
      (by decide) (by decide)).1).trans (by decide)⟩

/-! ## Tags of the command frames -/

theorem le32Of_tag (a b : Nat) (rest : List Nat) :
    le32Of (fn_le32 a ++ (fn_le32 b ++ rest)) 4 = b % 4294967296 := by
  simp only [le32Of, le32, byteOf, fn_le32, List.cons_append, List.nil_append,
    List.getD_cons_zero, List.getD_cons_succ]
  omega

theorem frameTag_refresh (tag : Nat) :
    frameTag (UsbCall.bulk 0x01 (refreshFrame tag) 16) = some (tag % 4294967296) := by
  unfold frameTag refreshFrame
  simp only [List.append_assoc]
  rw [if_pos trivial, le32Of_tag]

theorem frameTag_set_angle (tag : Nat) (t : Int) :
    frameTag (UsbCall.bulk 0x01 (setAngleFrame tag t) 56) = some (tag % 4294967296) := by
  unfold frameTag setAngleFrame
  simp only [List.append_assoc]
  rw [if_pos trivial, le32Of_tag]

theorem frameTag_set_led (tag : Nat) (o : Int) :
    frameTag (UsbCall.bulk 0x01 (setLedFrame tag o) 20) = some (tag % 4294967296) := by
  unfold frameTag setLedFrame
  simp only [List.append_assoc]
  rw [if_pos trivial, le32Of_tag]

theorem frameTag_ack : frameTag ackCall = none := by decide

theorem frameTag_read : frameTag refreshReadCall = none := by decide

theorem frameTags_cons_some (c : UsbCall) (rest : List UsbCall) (v : Nat)
    (h : frameTag c = some v) : frameTags (c :: rest) = v :: frameTags rest := by
  unfold frameTags
  rw [List.filterMap_cons_some h]

theorem frameTags_cons_none (c : UsbCall) (rest : List UsbCall)
    (h : frameTag c = none) : frameTags (c :: rest) = frameTags rest := by
  unfold frameTags
  rw [List.filterMap_cons_none h]

theorem frameTags_nil : frameTags [] = [] := rfl

theorem frameTags_append (l1 l2 : List UsbCall) :
    frameTags (l1 ++ l2) = frameTags l1 ++ frameTags l2 := by
  unfold frameTags
  exact List.filterMap_append _ _ _

/-- The calls a current-revision command adds after its frame `w`: nothing, the
data read, the ack read, or both; none of them is a command frame. -/
theorem frameTags_after_write (w : UsbCall) (v : Nat) (h : frameTag w = some v) :
    frameTags [w] = [v] ∧ frameTags [w, ackCall] = [v]
    ∧ frameTags [w, refreshReadCall] = [v] ∧ frameTags [w, refreshReadCall, ackCall] = [v] := by
  refine ⟨?_, ?_, ?_, ?_⟩
  · rw [frameTags_cons_some _ _ _ h, frameTags_nil]
  · rw [frameTags_cons_some _ _ _ h, frameTags_cons_none _ _ frameTag_ack, frameTags_nil]
  · rw [frameTags_cons_some _ _ _ h, frameTags_cons_none _ _ frameTag_read, frameTags_nil]
  · rw [frameTags_cons_some _ _ _ h, frameTags_cons_none _ _ frameTag_read,
      frameTags_cons_none _ _ frameTag_ack, frameTags_nil]

theorem reply_frame_step (env : Env) (t : List UsbCall) (a b : Nat) (d : freenect_device)
    (m : Machine) (extra : List UsbCall) (ht : t = m.trace ++ extra)
    (ha : a = u32 (m.tag_seq + 1))
    (hx : frameTags (extra ++ [ackCall]) = [m.tag_seq % 4294967296]) :
    FrameStep m (freenect_tilt_get_reply env ⟨t, a, b, d⟩).2 := by
  refine ⟨extra ++ [ackCall], ?_, Or.inr ⟨hx, ?_⟩⟩
  · rw [get_reply_trace]
    show t ++ [ackCall] = m.trace ++ (extra ++ [ackCall])
    rw [ht, List.append_assoc]
  · rw [(get_reply_counters env ⟨t, a, b, d⟩).1]
    exact ha

theorem update_frames (env : Env) (m : Machine) :
    FrameStep m (freenect_update_tilt_state env m).2 := by
  by_cases hm : m.dev.usb_motor_dev = true
  · by_cases hk : m.dev.model = KINECT_MODEL_K4W
    · have hw := frameTags_after_write _ _ (frameTag_refresh m.tag_seq)
      rw [update_k4w_eq env m hm hk, refreshWriteCall_eq]
      split_ifs
      · exact ⟨[UsbCall.bulk 0x01 (refreshFrame m.tag_seq) 16], rfl, Or.inr ⟨hw.1, rfl⟩⟩
      · exact ⟨[UsbCall.bulk 0x01 (refreshFrame m.tag_seq) 16, refreshReadCall],
          List.append_assoc _ _ _, Or.inr ⟨hw.2.2.1, rfl⟩⟩
      · exact reply_frame_step env _ _ _ _ m
          [UsbCall.bulk 0x01 (refreshFrame m.tag_seq) 16, refreshReadCall]
          (List.append_assoc _ _ _) rfl hw.2.2.2
    · by_cases hl : m.dev.model = KINECT_MODEL_1414
      · rw [update_legacy_eq env m hm hl, update_1414_eq env 0 m hl]
        split_ifs <;> exact ⟨[legacyRefreshCall], rfl, Or.inl ⟨rfl, rfl⟩⟩
      · unfold freenect_update_tilt_state
        rw [if_pos hm, if_neg hk, update_1414_of_ne env 0 m hl]
        exact ⟨[], (List.append_nil _).symm, Or.inl ⟨rfl, rfl⟩⟩
  · unfold freenect_update_tilt_state
    rw [if_neg hm]
    exact ⟨[], (List.append_nil _).symm, Or.inl ⟨rfl, rfl⟩⟩

theorem set_tilt_frames (env : Env) (m : Machine) (angle : ℚ) :
    FrameStep m (freenect_set_tilt_degs env m angle).2 := by
  by_cases hm : m.dev.usb_motor_dev = true
  · by_cases hk : m.dev.model = KINECT_MODEL_K4W
    · have hw := frameTags_after_write _ _ (frameTag_set_angle m.tag_seq (doubleToInt32 angle))
      rw [set_tilt_k4w_eq env m angle hm hk, setTiltWriteCall_eq]
      split_ifs
      · exact ⟨[], (List.append_nil _).symm, Or.inl ⟨rfl, rfl⟩⟩
      · exact ⟨[UsbCall.bulk 0x01 (setAngleFrame m.tag_seq (doubleToInt32 angle)) 56], rfl,
          Or.inr ⟨hw.1, rfl⟩⟩
      · exact reply_frame_step env _ _ _ _ m
          [UsbCall.bulk 0x01 (setAngleFrame m.tag_seq (doubleToInt32 angle)) 56] rfl rfl hw.2.1
    · by_cases hl : m.dev.model = KINECT_MODEL_1414
      · rw [set_tilt_legacy_eq env m angle hm hl]
        exact ⟨[legacySetTiltCall (doubleToUInt16 env.ub_uint16 (clampAngle angle * 2))], rfl,
          Or.inl ⟨rfl, rfl⟩⟩
      · unfold freenect_set_tilt_degs
        rw [if_pos hm, if_neg hk, if_neg hl]
        exact ⟨[], (List.append_nil _).symm, Or.inl ⟨rfl, rfl⟩⟩
  · unfold freenect_set_tilt_degs
    rw [if_neg hm]
    exact ⟨[], (List.append_nil _).symm, Or.inl ⟨rfl, rfl⟩⟩

theorem set_led_frames (env : Env) (m : Machine) (option : Nat) :
    FrameStep m (freenect_set_led env m option).2 := by
  by_cases hm : m.dev.usb_motor_dev = true
  · by_cases hk : m.dev.model = KINECT_MODEL_K4W
    · have hw := frameTags_after_write _ _
        (frameTag_set_led m.tag_seq (led_lookup option KINECT_MODEL_K4W))
      rw [set_led_k4w_eq env m option hm hk, setLedWriteCall_eq]
      split_ifs
      · exact ⟨[UsbCall.bulk 0x01 (setLedFrame m.tag_seq (led_lookup option KINECT_MODEL_K4W)) 20],
          rfl, Or.inr ⟨hw.1, rfl⟩⟩
      · exact reply_frame_step env _ _ _ _ m
          [UsbCall.bulk 0x01 (setLedFrame m.tag_seq (led_lookup option KINECT_MODEL_K4W)) 20]
          rfl rfl hw.2.1
    · by_cases hl : m.dev.model = KINECT_MODEL_1414
      · rw [set_led_legacy_eq env m option hm hl]
        exact ⟨[legacySetLedCall (toUInt16 (led_lookup option KINECT_MODEL_1414))], rfl,
          Or.inl ⟨rfl, rfl⟩⟩
      · unfold freenect_set_led
        simp only []
        rw [if_pos hm, if_neg hk, if_neg hl]
        exact ⟨[], (List.append_nil _).symm, Or.inl ⟨rfl, rfl⟩⟩
  · unfold freenect_set_led
    simp only []
    rw [if_neg hm]
    exact ⟨[], (List.append_nil _).symm, Or.inl ⟨rfl, rfl⟩⟩

theorem step_frames (env : Env) (m : Machine) (op : Op) : FrameStep m (step env m op) := by
  cases op with
  | update => exact update_frames env m
  | set_tilt a => exact set_tilt_frames env m a
  | set_led o => exact set_led_frames env m o

theorem consecutiveTags_succ (n : Nat) :
    consecutiveTags (n + 1) = consecutiveTags n ++ [(n + 1) % 4294967296] := by
  unfold consecutiveTags
  rw [List.range_succ, List.map_append]
  rfl

theorem step_keeps_tags (env : Env) (m : Machine) (op : Op)
    (h1 : m.tag_seq < 4294967296)
    (h2 : m.tag_seq = (1 + (frameTags m.trace).length) % 4294967296)
    (h3 : frameTags m.trace = consecutiveTags (frameTags m.trace).length) :
    (step env m op).tag_seq < 4294967296
    ∧ (step env m op).tag_seq = (1 + (frameTags (step env m op).trace).length) % 4294967296
    ∧ frameTags (step env m op).trace
        = consecutiveTags (frameTags (step env m op).trace).length := by
  obtain ⟨extra, ht, hx⟩ := step_frames env m op
  rw [ht, frameTags_append]
  rcases hx with ⟨hx1, hx2⟩ | ⟨hx1, hx2⟩
  · rw [hx1, hx2, List.append_nil]
    exact ⟨h1, h2, h3⟩
  · have hmod : m.tag_seq % 4294967296 = ((frameTags m.trace).length + 1) % 4294967296 := by
      omega
    rw [hx1, hx2, List.length_append, List.length_singleton, consecutiveTags_succ, ← h3, hmod]
    unfold u32
    refine ⟨?_, ?_, rfl⟩ <;> omega

theorem run_keeps_tags (env : Env) (ops : List Op) :
    ∀ m : Machine, m.tag_seq < 4294967296 →
      m.tag_seq = (1 + (frameTags m.trace).length) % 4294967296 →
      frameTags m.trace = consecutiveTags (frameTags m.trace).length →
      frameTags (run env m ops).trace
        = consecutiveTags (frameTags (run env m ops).trace).length := by
  induction ops with
  | nil => intro m _ _ h3; exact h3
  | cons op ops ih =>
    intro m h1 h2 h3
    have hs := step_keeps_tags env m op h1 h2 h3
    exact ih (step env m op) hs.1 hs.2.1 hs.2.2

theorem consecutiveTags_get (n k : Nat) (h1 : 1 ≤ k) (h2 : k < 4294967296) (h3 : k ≤ n) :
    (consecutiveTags n)[k - 1]? = some k := by
  unfold consecutiveTags
  rw [List.getElem?_map, List.getElem?_range (by omega)]
  show some ((k - 1 + 1) % 4294967296) = some k
  congr 1
  omega

/-- C14: starting from the initial counters, for every sequence of operations and
any transport behaviour, the tags of the command frames written to the transport
are 1, 2, 3, ... in order: the k-th frame (k below 2^32) carries tag k.  Each
operation either writes one command frame, which carries the former `tag_seq`,
and increments `tag_seq` by one (modulo 2^32), or writes no command frame and
leaves `tag_seq` unchanged. -/
theorem C14_tags_consecutive (env : Env) (dev : freenect_device) (ops : List Op) :
    frameTags (run env (initial dev) ops).trace
      = consecutiveTags (frameTags (run env (initial dev) ops).trace).length
    ∧ (∀ k, 1 ≤ k → k < 4294967296 →
        k ≤ (frameTags (run env (initial dev) ops).trace).length →
        (frameTags (run env (initial dev) ops).trace)[k - 1]? = some k)
    ∧ (∀ (m : Machine) (op : Op),
        (frameTags (step env m op).trace = frameTags m.trace
          ∧ (step env m op).tag_seq = m.tag_seq)
        ∨ (frameTags (step env m op).trace = frameTags m.trace ++ [m.tag_seq % 4294967296]
          ∧ (step env m op).tag_seq = u32 (m.tag_seq + 1))) := by
  have h0 : (initial dev).tag_seq < 4294967296 := by
    show 1 < 4294967296
    decide
  have h := run_keeps_tags env ops (initial dev) h0 rfl rfl
  refine ⟨h, ?_, ?_⟩
  · intro k h1 h2 h3
    rw [h]
    exact consecutiveTags_get _ k h1 h2 h3
  · intro m op
    obtain ⟨extra, ht, hx⟩ := step_frames env m op
    rw [ht, frameTags_append]
    rcases hx with ⟨hx1, hx2⟩ | ⟨hx1, hx2⟩
    · left
      rw [hx1, List.append_nil]
      exact ⟨rfl, hx2⟩
    · right
      rw [hx1]
      exact ⟨rfl, hx2⟩

/-- C14, at a concrete input: after a refresh and a set-LED on a current-revision
device the second command frame carries tag 2. -/
theorem C14_tags_consecutive_witness :
    (frameTags (run sampleEnv (initial k4wDev) [Op.update, Op.set_led 1]).trace)[2 - 1]?
      = some 2 :=
  (C14_tags_consecutive sampleEnv k4wDev [Op.update, Op.set_led 1]).2.1 2
    (by decide) (by decide) (by decide)

/-! ## Legacy set-angle and unrecognized revisions -/

theorem clampAngle_bounds (a : ℚ) : -31 ≤ clampAngle a ∧ clampAngle a ≤ 31 := by
  unfold clampAngle MIN_TILT_ANGLE MAX_TILT_ANGLE
  split_ifs with h1 h2
  · constructor <;> norm_num
  · constructor <;> norm_num
  · constructor <;> linarith

theorem clampAngle_eq_max_min (a : ℚ) : clampAngle a = max (-31) (min a 31) := by
  unfold clampAngle MIN_TILT_ANGLE MAX_TILT_ANGLE
  split_ifs with h1 h2
  · rw [min_eq_left (by linarith), max_eq_left (by linarith)]
  · rw [min_eq_right (by linarith), max_eq_right (by norm_num)]
  · rw [min_eq_left (by linarith), max_eq_right (by linarith)]

theorem toInt16_toUInt16 (v : Int) (h1 : -32768 ≤ v) (h2 : v < 32768) :
    toInt16 ((toUInt16 v : Nat) : Int) = v := by
  unfold toInt16 toUInt16
  rw [Int.toNat_of_nonneg (Int.emod_nonneg _ (by decide))]
  split_ifs <;> omega

/-- On a build that keeps the low 16 bits, the value sent is the 16-bit
two's-complement representation of the truncated operand. -/
theorem doubleToUInt16_wrap (a : ℚ) (h : truncToInt a < 65536) :
    doubleToUInt16 wrapUInt16 a = toUInt16 (truncToInt a) := by
  unfold doubleToUInt16 wrapUInt16 toUInt16
  split_ifs with h0
  · congr 1
    omega
  · have hnn := Int.emod_nonneg (truncToInt a) (show (65536 : Int) ≠ 0 by decide)
    have hlt := Int.emod_lt_of_pos (truncToInt a) (show (0 : Int) < 65536 by decide)
    omega

theorem doubleToUInt16_defined (ub : ℚ → Nat) (a : ℚ)
    (h1 : 0 ≤ truncToInt a) (h2 : truncToInt a < 65536) :
    doubleToUInt16 ub a = (truncToInt a).toNat := by
  unfold doubleToUInt16
  rw [if_pos ⟨h1, h2⟩]

theorem doubleToUInt16_undefined (ub : ℚ → Nat) (a : ℚ) (h : truncToInt a < 0) :
    doubleToUInt16 ub a = ub a % 65536 := by
  unfold doubleToUInt16
  rw [if_neg (fun hc => absurd hc.1 (by omega))]

/-- What the legacy set-angle does for every finite angle and every build: one
control transfer (request type 0x40, request 0x31, index 0, no payload), no
angle rejected, the transport's result returned, nothing else changed.  The
commanded half-degree value trunc(2 * clamp(a, -31, 31)) lies in [-62, 62]; the
value field carries it where it is not negative, and where it is negative the
value field is what the build's undefined conversion delivers. -/
theorem legacy_set_angle_call (env : Env) (m : Machine) (a : ℚ)
    (hm : m.dev.usb_motor_dev = true) (hl : m.dev.model = KINECT_MODEL_1414) :
    clampAngle a = max (-31) (min a 31)
    ∧ -62 ≤ truncToInt (clampAngle a * 2) ∧ truncToInt (clampAngle a * 2) ≤ 62
    ∧ (freenect_set_tilt_degs env m a).2.trace
        = m.trace ++ [UsbCall.control 0x40 0x31
            (doubleToUInt16 env.ub_uint16 (clampAngle a * 2)) 0 [] 0]
    ∧ (freenect_set_tilt_degs env m a).1
        = (env.usb m.trace (UsbCall.control 0x40 0x31
            (doubleToUInt16 env.ub_uint16 (clampAngle a * 2)) 0 [] 0)).res
    ∧ (freenect_set_tilt_degs env m a).2.tag_seq = m.tag_seq
    ∧ (freenect_set_tilt_degs env m a).2.tag_next_ack = m.tag_next_ack
    ∧ (freenect_set_tilt_degs env m a).2.dev = m.dev
    ∧ (0 ≤ truncToInt (clampAngle a * 2) →
        doubleToUInt16 env.ub_uint16 (clampAngle a * 2)
          = (truncToInt (clampAngle a * 2)).toNat)
    ∧ (truncToInt (clampAngle a * 2) < 0 →
        doubleToUInt16 env.ub_uint16 (clampAngle a * 2)
          = env.ub_uint16 (clampAngle a * 2) % 65536) := by
  have hc := clampAngle_bounds a
  have hb := truncToInt_bounds (clampAngle a * 2) 62 (by push_cast; linarith)
    (by push_cast; linarith)
  refine ⟨clampAngle_eq_max_min a, hb.1, hb.2, ?_⟩
  rw [set_tilt_legacy_eq env m a hm hl]
  refine ⟨rfl, rfl, rfl, rfl, rfl, ?_, ?_⟩
  · intro h0
    exact doubleToUInt16_defined _ _ h0 (by omega)
  · intro h0
    exact doubleToUInt16_undefined _ _ h0

theorem clampAngle_neg_100 : clampAngle (-100) * 2 = -62 := by
  unfold clampAngle MIN_TILT_ANGLE
  rw [if_pos (by norm_num)]
  norm_num

theorem truncToInt_neg_62 : truncToInt (-62) = -62 := by
  unfold truncToInt
  rw [if_neg (by norm_num)]
  exact Int.ceil_intCast (-62 : Int)

/-- C15, the code at the failing input: -100 degrees on a legacy device, built
so that the conversion of the negative clamp constant is folded to 0.  The
commanded half-degree value is trunc(2 * clamp(-100)) = -62, whose 16-bit
two's-complement representation is 65474; the control transfer made carries the
value 0. -/
theorem C15_negative_angle_sends_build_value :
    clampAngle (-100) * 2 = -62
    ∧ truncToInt (clampAngle (-100) * 2) = -62
    ∧ toUInt16 (truncToInt (clampAngle (-100) * 2)) = 65474
    ∧ (freenect_set_tilt_degs foldingEnv (initial legacyDev) (-100)).2.trace
        = [UsbCall.control 0x40 0x31 0 0 [] 0]
    ∧ (freenect_set_tilt_degs foldingEnv (initial legacyDev) (-100)).1 = 0 := by
  have h1 := clampAngle_neg_100
  have h2 : truncToInt (clampAngle (-100) * 2) = -62 := by rw [h1, truncToInt_neg_62]
  have hv : doubleToUInt16 foldingEnv.ub_uint16 (clampAngle (-100) * 2) = 0 := by
    rw [doubleToUInt16_undefined _ _ (by rw [h2]; decide)]
    rfl
  refine ⟨h1, h2, by rw [h2]; decide, ?_, ?_⟩
  · rw [set_tilt_legacy_eq foldingEnv (initial legacyDev) (-100) rfl rfl, hv]
    rfl
  · rw [set_tilt_legacy_eq foldingEnv (initial legacyDev) (-100) rfl rfl, hv]
    rfl

/-- C16: for a device whose revision is neither the current nor the legacy one,
refresh, set-angle (every angle) and set-LED (every option) each return 0 and
leave the whole state as it was: no transport call is recorded, and `tag_seq`,
`tag_next_ack` and the raw tilt state are unchanged. -/
theorem C16_unrecognized_revision_noop (env : Env) (m : Machine)
    (hk : m.dev.model ≠ KINECT_MODEL_K4W) (hl : m.dev.model ≠ KINECT_MODEL_1414) :
    freenect_update_tilt_state env m = (0, m)
    ∧ (∀ a : ℚ, freenect_set_tilt_degs env m a = (0, m))
    ∧ (∀ o : Nat, freenect_set_led env m o = (0, m)) := by
  refine ⟨?_, ?_, ?_⟩
  · unfold freenect_update_tilt_state
    by_cases hm : m.dev.usb_motor_dev = true
    · rw [if_pos hm, if_neg hk, update_1414_of_ne env 0 m hl]
    · rw [if_neg hm]
  · intro a
    unfold freenect_set_tilt_degs
    by_cases hm : m.dev.usb_motor_dev = true
    · rw [if_pos hm, if_neg hk, if_neg hl]
    · rw [if_neg hm]
  · intro o
    unfold freenect_set_led
    simp only []
    by_cases hm : m.dev.usb_motor_dev = true
    · rw [if_pos hm, if_neg hk, if_neg hl]
    · rw [if_neg hm]

/-- C16, at a concrete input: a device of revision 2 with a motor attached. -/
theorem C16_unrecognized_revision_noop_witness :
    (initial unknownDev).dev.model ≠ KINECT_MODEL_K4W
    ∧ (initial unknownDev).dev.model ≠ KINECT_MODEL_1414
    ∧ freenect_update_tilt_state failEnv (initial unknownDev) = (0, initial unknownDev)
    ∧ freenect_set_led failEnv (initial unknownDev) 6 = (0, initial unknownDev) :=
  ⟨by decide, by decide,
   (C16_unrecognized_revision_noop failEnv (initial unknownDev) (by decide) (by decide)).1,
   (C16_unrecognized_revision_noop failEnv (initial unknownDev) (by decide) (by decide)).2.2 6⟩

/-! ## Frame of the raw tilt state -/

theorem set_led_dev (env : Env) (m : Machine) (option : Nat) :
    (freenect_set_led env m option).2.dev = m.dev := by
  by_cases hm : m.dev.usb_motor_dev = true
  · by_cases hk : m.dev.model = KINECT_MODEL_K4W
    · rw [set_led_k4w_eq env m option hm hk]
      split_ifs
      · rfl
      · rw [get_reply_model]
    · by_cases hl : m.dev.model = KINECT_MODEL_1414
      · rw [set_led_legacy_eq env m option hm hl]
      · unfold freenect_set_led
        simp only []
        rw [if_pos hm, if_neg hk, if_neg hl]
  · unfold freenect_set_led
    simp only []
    rw [if_neg hm]

/-- C17: for every state, revision, argument and transport behaviour,
`freenect_set_tilt_degs`, `freenect_set_led` and the reply validator leave all
five fields of the raw tilt state unchanged; the accessors `freenect_get_tilt_degs`, `freenect_get_tilt_status` and
`freenect_get_mks_accel` leave the state they are given as it was. -/
theorem C17_raw_state_frame (env : Env) (m : Machine) :
    (∀ a : ℚ, (freenect_set_tilt_degs env m a).2.dev.raw_state = m.dev.raw_state)
    ∧ (∀ o : Nat, (freenect_set_led env m o).2.dev.raw_state = m.dev.raw_state)
    ∧ (freenect_tilt_get_reply env m).2.dev.raw_state = m.dev.raw_state
    ∧ (∀ s : freenect_raw_tilt_state,
        (get_tilt_degs_call s).2 = s ∧ (get_tilt_status_call s).2 = s
        ∧ (get_mks_accel_call s).2 = s) := by
  refine ⟨?_, ?_, ?_, ?_⟩
  · intro a
    rw [set_tilt_dev]
  · intro o
    rw [set_led_dev]
  · rw [get_reply_model]
  · intro s
    exact ⟨rfl, rfl, rfl⟩

/-! ## Accelerometer conversion -/

/-- C18: over exact rationals, `freenect_get_mks_accel` returns for each axis
raw / 819 * 9.80665, computed from that axis alone: whatever the other fields
are, the value reported for the raw count 2r is twice the value reported for r,
and raw counts (0, 0, 0) give (0, 0, 0). -/
theorem C18_mks_accel_linear (s : freenect_raw_tilt_state) :
    freenect_get_mks_accel s
      = ((s.accelerometer_x : ℚ) / 819 * 9.80665, (s.accelerometer_y : ℚ) / 819 * 9.80665,
         (s.accelerometer_z : ℚ) / 819 * 9.80665)
    ∧ (∀ (r : Int) (u : freenect_raw_tilt_state),
        (freenect_get_mks_accel { u with accelerometer_x := 2 * r }).1
          = 2 * (freenect_get_mks_accel { s with accelerometer_x := r }).1)
    ∧ (∀ (r : Int) (u : freenect_raw_tilt_state),
        (freenect_get_mks_accel { u with accelerometer_y := 2 * r }).2.1
          = 2 * (freenect_get_mks_accel { s with accelerometer_y := r }).2.1)
    ∧ (∀ (r : Int) (u : freenect_raw_tilt_state),
        (freenect_get_mks_accel { u with accelerometer_z := 2 * r }).2.2
          = 2 * (freenect_get_mks_accel { s with accelerometer_z := r }).2.2)
    ∧ freenect_get_mks_accel
        { s with accelerometer_x := 0, accelerometer_y := 0, accelerometer_z := 0 }
        = (0, 0, 0) := by
  refine ⟨?_, ?_, ?_, ?_, ?_⟩
  · unfold freenect_get_mks_accel FREENECT_COUNTS_PER_G GRAVITY
    norm_num
  · intro r u
    unfold freenect_get_mks_accel
    simp only []
    push_cast
    ring
  · intro r u
    unfold freenect_get_mks_accel
    simp only []
    push_cast
    ring
  · intro r u
    unfold freenect_get_mks_accel
    simp only []
    push_cast
    ring
  · unfold freenect_get_mks_accel
    simp

/-! ## Commands and their acks -/

theorem reply_zero_of_12 (env : Env) (t : List UsbCall) (a b : Nat) (d : freenect_device)
    (h0 : (freenect_tilt_get_reply env ⟨t, a, b, d⟩).1 = 0)
    (h12 : (env.usb t ackCall).transferred = 12) :
    le32Of (env.usb t ackCall).data 4 = b
    ∧ (freenect_tilt_get_reply env ⟨t, a, b, d⟩).2.tag_seq = a
    ∧ (freenect_tilt_get_reply env ⟨t, a, b, d⟩).2.tag_next_ack = u32 (b + 1) := by
  rw [get_reply_eq] at h0 ⊢
  change (env.usb t ackCall).transferred = 12 at h12
  by_cases hr : (env.usb t ackCall).res = 0
  · have hr1 : ¬ ((env.usb (Machine.mk t a b d).trace ackCall).res ≠ 0) := not_not.mpr hr
    have h121 : ¬ ((env.usb (Machine.mk t a b d).trace ackCall).transferred ≠ 12) :=
      not_not.mpr h12
    rw [if_neg hr1, if_neg h121] at h0 ⊢
    by_cases hc : le32Of (env.usb (Machine.mk t a b d).trace ackCall).data 0 = 0x0A6FE000
        ∧ le32Of (env.usb (Machine.mk t a b d).trace ackCall).data 4
            = (Machine.mk t a b d).tag_next_ack
        ∧ le32Of (env.usb (Machine.mk t a b d).trace ackCall).data 8 = 0
    · exact ⟨hc.2.1, rfl, rfl⟩
    · rw [if_neg hc] at h0
      have hne : ¬ ((-1 : Int) = 0) := by decide
      exact absurd h0 hne
  · have hr1 : (env.usb (Machine.mk t a b d).trace ackCall).res ≠ 0 := hr
    rw [if_pos hr1] at h0
    exact absurd h0 hr

/-- C19: on a current-revision device with `tag_seq = tag_next_ack = n`,
n < 2^32 - 1, if `freenect_set_led` or an in-range `freenect_set_tilt_degs`
returns 0 after reading a 12-byte ack, then the tag of that ack is n, which is
the tag of the command frame just sent, and afterwards
`tag_seq = tag_next_ack = n + 1`. -/
theorem C19_success_keeps_counters_in_step (env : Env) (m : Machine) (n : Nat)
    (hm : m.dev.usb_motor_dev = true) (hk : m.dev.model = KINECT_MODEL_K4W)
    (hs : m.tag_seq = n) (ha : m.tag_next_ack = n) (hn : n < 4294967295) :
    (∀ o : Nat,
      (freenect_set_led env m o).1 = 0 →
      (env.usb (m.trace ++ [UsbCall.bulk 0x01 (setLedFrame n (led_lookup o KINECT_MODEL_K4W)) 20])
        (UsbCall.bulk 0x81 [] 1024)).transferred = 12 →
      le32Of (env.usb (m.trace
          ++ [UsbCall.bulk 0x01 (setLedFrame n (led_lookup o KINECT_MODEL_K4W)) 20])
          (UsbCall.bulk 0x81 [] 1024)).data 4 = n
      ∧ frameTag (UsbCall.bulk 0x01 (setLedFrame n (led_lookup o KINECT_MODEL_K4W)) 20) = some n
      ∧ (freenect_set_led env m o).2.tag_seq = n + 1
      ∧ (freenect_set_led env m o).2.tag_next_ack = n + 1)
    ∧ (∀ a : ℚ, -31 ≤ truncToInt a → truncToInt a ≤ 31 →
      (freenect_set_tilt_degs env m a).1 = 0 →
      (env.usb (m.trace ++ [UsbCall.bulk 0x01 (setAngleFrame n (truncToInt a)) 56])
        (UsbCall.bulk 0x81 [] 1024)).transferred = 12 →
      le32Of (env.usb (m.trace ++ [UsbCall.bulk 0x01 (setAngleFrame n (truncToInt a)) 56])
          (UsbCall.bulk 0x81 [] 1024)).data 4 = n
      ∧ frameTag (UsbCall.bulk 0x01 (setAngleFrame n (truncToInt a)) 56) = some n
      ∧ (freenect_set_tilt_degs env m a).2.tag_seq = n + 1
      ∧ (freenect_set_tilt_degs env m a).2.tag_next_ack = n + 1) := by
  have hmod : n % 4294967296 = n := Nat.mod_eq_of_lt (by omega)
  have hu : u32 (n + 1) = n + 1 := by
    unfold u32
    exact Nat.mod_eq_of_lt (by omega)
  constructor
  · intro o h0 h12
    have hft := frameTag_set_led n (led_lookup o KINECT_MODEL_K4W)
    rw [hmod] at hft
    rw [set_led_k4w_eq env m o hm hk, setLedWriteCall_eq, hs, ha] at h0 ⊢
    by_cases hw : (env.usb m.trace
        (UsbCall.bulk 0x01 (setLedFrame n (led_lookup o KINECT_MODEL_K4W)) 20)).res = 0
    · rw [if_neg (not_not.mpr hw), hu] at h0 ⊢
      have h := reply_zero_of_12 env _ _ _ _ h0 h12
      rw [hu] at h
      exact ⟨h.1, hft, h.2.1, h.2.2⟩
    · rw [if_pos hw] at h0
      exact absurd h0 hw
  · intro a h1 h2 h0 h12
    have hft := frameTag_set_angle n (truncToInt a)
    rw [hmod] at hft
    have hlow : ¬ (truncToInt a > 31 ∨ truncToInt a < -31) := by omega
    rw [set_tilt_k4w_eq env m a hm hk, doubleToInt32_of_small a h1 h2, if_neg hlow,
      setTiltWriteCall_eq, hs, ha] at h0 ⊢
    by_cases hw : (env.usb m.trace
        (UsbCall.bulk 0x01 (setAngleFrame n (truncToInt a)) 56)).res = 0
    · rw [if_neg (not_not.mpr hw), hu] at h0 ⊢
      have h := reply_zero_of_12 env _ _ _ _ h0 h12
      rw [hu] at h
      exact ⟨h.1, hft, h.2.1, h.2.2⟩
    · rw [if_pos hw] at h0
      exact absurd h0 hw

/-- C19, at a concrete input: set-LED in the initial state (n = 1) with a
well-formed ack for tag 1. -/
theorem C19_success_keeps_counters_in_step_witness :
    (initial k4wDev).tag_seq = 1 ∧ (initial k4wDev).tag_next_ack = 1
    ∧ (freenect_set_led sampleEnv (initial k4wDev) 1).1 = 0
    ∧ (freenect_set_led sampleEnv (initial k4wDev) 1).2.tag_seq = 1 + 1
    ∧ (freenect_set_led sampleEnv (initial k4wDev) 1).2.tag_next_ack = 1 + 1 :=
  ⟨rfl, rfl, by decide,
   ((C19_success_keeps_counters_in_step sampleEnv (initial k4wDev) 1 rfl rfl rfl rfl
      (by decide)).1 1 (by decide) (by decide)).2.2.1,
   ((C19_success_keeps_counters_in_step sampleEnv (initial k4wDev) 1 rfl rfl rfl rfl
      (by decide)).1 1 (by decide) (by decide)).2.2.2⟩

/-- C20: on a current-revision device with a motor, when the bulk write of the
command frame returns a nonzero error `e`, each of refresh, in-range set-angle
and set-LED returns `e` and leaves the state as it was except for two things:
the trace has gained that one write (no ack read follows) and `tag_seq` is
incremented by one (modulo 2^32); `tag_next_ack` and the raw tilt state are
unchanged.  So after n such failures from the initial counters (n below
2^32 - 1) the gap `tag_seq - tag_next_ack` is n. -/
theorem C20_failed_write_consumes_tag (env : Env) (m : Machine)
    (hm : m.dev.usb_motor_dev = true) (hk : m.dev.model = KINECT_MODEL_K4W) :
    ((env.usb m.trace (UsbCall.bulk 0x01 (refreshFrame m.tag_seq) 16)).res ≠ 0 →
      freenect_update_tilt_state env m
        = ((env.usb m.trace (UsbCall.bulk 0x01 (refreshFrame m.tag_seq) 16)).res,
           { m with tag_seq := u32 (m.tag_seq + 1),
                    trace := m.trace ++ [UsbCall.bulk 0x01 (refreshFrame m.tag_seq) 16] }))
    ∧ (∀ a : ℚ, -31 ≤ truncToInt a → truncToInt a ≤ 31 →
      (env.usb m.trace (UsbCall.bulk 0x01 (setAngleFrame m.tag_seq (truncToInt a)) 56)).res ≠ 0 →
      freenect_set_tilt_degs env m a
        = ((env.usb m.trace
              (UsbCall.bulk 0x01 (setAngleFrame m.tag_seq (truncToInt a)) 56)).res,
           { m with tag_seq := u32 (m.tag_seq + 1),
                    trace := m.trace
                      ++ [UsbCall.bulk 0x01 (setAngleFrame m.tag_seq (truncToInt a)) 56] }))
    ∧ (∀ o : Nat,
      (env.usb m.trace (UsbCall.bulk 0x01
        (setLedFrame m.tag_seq (led_lookup o KINECT_MODEL_K4W)) 20)).res ≠ 0 →
      freenect_set_led env m o
        = ((env.usb m.trace (UsbCall.bulk 0x01
              (setLedFrame m.tag_seq (led_lookup o KINECT_MODEL_K4W)) 20)).res,
           { m with tag_seq := u32 (m.tag_seq + 1),
                    trace := m.trace ++ [UsbCall.bulk 0x01
                      (setLedFrame m.tag_seq (led_lookup o KINECT_MODEL_K4W)) 20] }))
    ∧ (∀ n : Nat, n + 1 < 4294967296 →
      (run failEnv (initial k4wDev) (List.replicate n Op.update)).tag_seq
        - (run failEnv (initial k4wDev) (List.replicate n Op.update)).tag_next_ack = n) := by
  refine ⟨?_, ?_, ?_, ?_⟩
  · intro hw
    rw [update_k4w_eq env m hm hk, refreshWriteCall_eq, if_pos hw]
  · intro a h1 h2 hw
    have hlow : ¬ (truncToInt a > 31 ∨ truncToInt a < -31) := by omega
    rw [set_tilt_k4w_eq env m a hm hk, doubleToInt32_of_small a h1 h2, if_neg hlow,
      setTiltWriteCall_eq, if_pos hw]
  · intro o hw
    rw [set_led_k4w_eq env m o hm hk, setLedWriteCall_eq, if_pos hw]
  · intro n hn
    have h1 : (initial k4wDev).tag_seq < 4294967296 := by
      show 1 < 4294967296
      decide
    have h := run_update_fail n (initial k4wDev) rfl rfl h1
    rw [h.1, h.2]
    show (1 + n) % 4294967296 - 1 = n
    omega

/-- C20, at a concrete input: a refresh in the initial state on a transport that
fails every call with -1; the result is -1, one write is recorded, `tag_seq` is 2
and `tag_next_ack` is still 1. -/
theorem C20_failed_write_consumes_tag_witness :
    (initial k4wDev).dev.usb_motor_dev = true
    ∧ (initial k4wDev).dev.model = KINECT_MODEL_K4W
    ∧ (failEnv.usb (initial k4wDev).trace
        (UsbCall.bulk 0x01 (refreshFrame (initial k4wDev).tag_seq) 16)).res ≠ 0
    ∧ freenect_update_tilt_state failEnv (initial k4wDev)
        = (-1, ⟨[UsbCall.bulk 0x01 (refreshFrame 1) 16], 2, 1, k4wDev⟩) :=
  ⟨rfl, rfl, by decide,
   ((C20_failed_write_consumes_tag failEnv (initial k4wDev) rfl rfl).1 (by decide)).trans
     (by decide)⟩

end Tilt
